import Mathlib

/-!
# Layer registration and service-VM transfer: a shallow embedding

Two Go files are embedded here:

* `vendor/github.com/Microsoft/go-winlx/serviceVMClient.go`
  (`sendLayer`, `waitForResponse`, `writeVHDFile`, `ServiceVMImportLayer`,
  `getVHDFile`, `ServiceVMExportLayer`), namespace `winlx`;
* `graph/graph_windows.go` (`Graph.Register`), namespace `graph`.

Stateful code is written as explicit state passing.  A Go `error` is an
`Option Error` (`none` is `nil`).  Every call on a collaborator (socket, file
system, backend driver) can be made to fail through an explicit fault
description, so that the theorems quantify over all failure injections.
-/

namespace winlx

/-- One octet. -/
abbrev Byte := Fin 256

/-- An error value made outside `serviceVMClient.go` (by the operating system,
the socket, package `io` or the header codec) and passed on by it. -/
inductive Cause where
  /-- The value `io.EOF`. -/
  | EOF
  /-- The value `io.ErrUnexpectedEOF`. -/
  | ErrUnexpectedEOF
  /-- An error for which `os.IsNotExist` holds. -/
  | notExist (path : String)
  /-- Any other error. -/
  | other (what : String)
  deriving DecidableEq

/-- The Go error values the functions of `serviceVMClient.go` return: one passed
on from outside, or one of the two made by `fmt.Errorf` in the file. -/
inductive Error where
  /-- An error passed on as it came. -/
  | passed (cause : Cause)
  /-- The error `fmt.Errorf("Service VM failed")` of `waitForResponse`. -/
  | serviceVMFailed
  /-- The error `fmt.Errorf("hvsock closed before reading all data. Expected: %d, got: %d", ..)`. -/
  | sizeMismatch (expected got : Int)
  deriving DecidableEq

/-- The test `os.IsNotExist(err)`. -/
def IsNotExist : Cause → Bool
  | .notExist _ => true
  | _ => false

/-- What the transfer code asks of the operating system, oldest call first. -/
inductive Call where
  | tempFile
  | removeTemp (name : String)
  | dial
  | connClose
  | osCreate (path : String)
  | osOpen (path : String)
  | fileClose (path : String)
  deriving DecidableEq

/-- A destination of writes (a file opened for writing, the outgoing side of a
socket, the write end of a pipe): the bytes it holds, and an injected fault.
With `limit = some l` the destination takes `l` bytes in all and the `Write`
that would exceed it stores what fits and fails with `err`. -/
structure Sink where
  data : List Byte
  limit : Option Nat
  err : Cause
  deriving DecidableEq

/-- One call `dst.Write(p)`: the number of bytes written, the error, the
destination afterwards. -/
def Sink.Write (dst : Sink) (p : List Byte) : Nat × Option Cause × Sink :=
  match dst.limit with
  | none => (p.length, none, { dst with data := dst.data ++ p })
  | some l =>
    if dst.data.length + p.length ≤ l then (p.length, none, { dst with data := dst.data ++ p })
    else (l - dst.data.length, some dst.err,
      { dst with data := dst.data ++ p.take (l - dst.data.length) })

/-- An `hvsock.Conn`.  The incoming side is the list of chunks that successive
`Read` calls deliver, followed by the error `Read` returns once they are used
up (`io.EOF` when the peer closed cleanly).  The outgoing side is a `Sink`;
`closeWriteErr` is the injected fault of `CloseWrite`. -/
structure Conn where
  reads : List (List Byte)
  closing : Cause
  out : Sink
  closeWriteErr : Option Cause
  writeClosed : Bool
  closed : Bool
  deriving DecidableEq

/-- The loop of `io.ReadAtLeast`:
`for n < min && err == nil { nn, err = r.Read(buf[n:]); n += nn }`, the buffer
having room for exactly `min` bytes.  Returns the bytes read, the error of the
last `Read` and the chunks left on the reader. -/
def readLoop (min : Nat) (closing : Cause) :
    List (List Byte) → List Byte → List Byte × Option Cause × List (List Byte)
  | [], buf => if min ≤ buf.length then (buf, none, []) else (buf, some closing, [])
  | chunk :: rest, buf =>
    if min ≤ buf.length then (buf, none, chunk :: rest)
    else if chunk.length ≤ min - buf.length then readLoop min closing rest (buf ++ chunk)
    else (buf ++ chunk.take (min - buf.length), none, chunk.drop (min - buf.length) :: rest)

/-- The call `io.ReadFull(c, buf[:])` for a buffer of `size` bytes, that is
`io.ReadAtLeast(c, buf, len(buf))`: after the loop, `err = nil` when the buffer
was filled, and an `io.EOF` after at least one byte becomes
`io.ErrUnexpectedEOF`. -/
def ReadFull (c : Conn) (size : Nat) : List Byte × Option Cause × Conn :=
  match readLoop size c.closing c.reads [] with
  | (buf, err, rest) =>
    let c1 := { c with reads := rest }
    if size ≤ buf.length then (buf, none, c1)
    else if 0 < buf.length ∧ err = some Cause.EOF then (buf, some Cause.ErrUnexpectedEOF, c1)
    else (buf, err, c1)

/-- The value of `binary.BigEndian.Uint64(b)`: the first eight bytes, most
significant first. -/
def BigEndianUint64 (b : List Byte) : Nat :=
  (b.getD 0 0).val * 2 ^ 56 + (b.getD 1 0).val * 2 ^ 48 + (b.getD 2 0).val * 2 ^ 40
    + (b.getD 3 0).val * 2 ^ 32 + (b.getD 4 0).val * 2 ^ 24 + (b.getD 5 0).val * 2 ^ 16
    + (b.getD 6 0).val * 2 ^ 8 + (b.getD 7 0).val

/-- The Go conversion `int64(u)` of a `uint64`: the same 64 bits read in two's
complement. -/
def int64 (u : Nat) : Int :=
  if u % 2 ^ 64 < 2 ^ 63 then ((u % 2 ^ 64 : Nat) : Int) else ((u % 2 ^ 64 : Nat) : Int) - 2 ^ 64

/-- The function `waitForResponse`.  `ResponseOKCmd` is a constant of the package
declared in another file; it is a parameter here. -/
def waitForResponse (ResponseOKCmd : Byte) (c : Conn) : Int × Option Error × Conn :=
  match ReadFull c 12 with
  | (_, some err, c1) => (0, some (Error.passed err), c1)
  | (buf, none, c1) =>
    if buf.getD 0 0 ≠ ResponseOKCmd then (0, some Error.serviceVMFailed, c1)
    else (int64 (BigEndianUint64 (buf.drop 4)), none, c1)

/-- The loop of `io.Copy(dst, src)`: every chunk read is written to `dst` and
counted; a failing write stops the copy with its error; the end of the source
stops it with `nil` when the source ended in `io.EOF` and with the source's
error otherwise.  Returns the count, the error, the destination and the chunks
left on the source. -/
def Copy (closing : Cause) :
    List (List Byte) → Sink → Nat → Nat × Option Cause × Sink × List (List Byte)
  | [], dst, written => (written, if closing = Cause.EOF then none else some closing, dst, [])
  | chunk :: rest, dst, written =>
    match dst.Write chunk with
    | (nw, some ew, dst1) => (written + nw, some ew, dst1, rest)
    | (nw, none, dst1) => Copy closing rest dst1 (written + nw)

/-- An `io.Reader` handed in by the caller or an `*os.File` opened for reading. -/
structure Reader where
  reads : List (List Byte)
  closing : Cause
  deriving DecidableEq

/-- The function `sendLayer`: the header, then the payload, then `CloseWrite`. -/
def sendLayer (c : Conn) (hdr : List Byte) (r : Reader) : Option Cause × Conn :=
  match c.out.Write hdr with
  | (_, some e, out1) => (some e, { c with out := out1 })
  | (_, none, out1) =>
    match Copy r.closing r.reads out1 0 with
    | (_, some e, out2, _) => (some e, { c with out := out2 })
    | (_, none, out2, _) =>
      (c.closeWriteErr, { c with out := out2, writeClosed := c.closeWriteErr.isNone })

/-- The machine the transfer code runs on: the regular files by path; the
paths at which `os.Open` fails for a reason other than absence, whether or not
a file is there (a missing permission, a name that is not valid); the
names of the files in the directory of temporary files; and the calls made so
far. -/
structure World where
  files : List (String × List Byte)
  denied : List String
  tmp : List String
  log : List Call
  deriving DecidableEq

/-- The struct `ServiceVMHeader`, declared in another file of the package. -/
structure ServiceVMHeader where
  Command : Nat
  Version : Nat
  SCSIControllerNum : Nat
  SCSIDiskNum : Nat
  deriving DecidableEq

/-- The declarations of package `winlx` that `serviceVMClient.go` uses and that
live in files outside this excerpt; they are parameters of the embedding. -/
structure Package where
  ResponseOKCmd : Byte
  ImportCmd : Nat
  ExportCmd : Nat
  LayerVHDName : String
  SerializeHeader : ServiceVMHeader → Except Cause (List Byte)

/-- The components of a path: the runs of characters between slashes, empty runs
included.  `cur` holds the component being read, last character first. -/
def splitSlash : List Char → List Char → List (List Char)
  | [], cur => [cur.reverse]
  | c :: cs, cur => if c = '/' then cur.reverse :: splitSlash cs [] else splitSlash cs (c :: cur)

/-- The rewriting of `path.Clean` on components: empty and `.` components go, a
`..` takes the component before it with it unless that is a `..` too, and a
`..` with nothing before it goes when the path is rooted and stays otherwise.
`kept` holds the components kept so far, last one first. -/
def cleanComponents (rooted : Bool) : List (List Char) → List (List Char) → List (List Char)
  | [], kept => kept.reverse
  | comp :: rest, kept =>
    if comp = [] ∨ comp = ['.'] then cleanComponents rooted rest kept
    else if comp = ['.', '.'] then
      match kept with
      | top :: below =>
        if top = ['.', '.'] then cleanComponents rooted rest (comp :: kept)
        else cleanComponents rooted rest below
      | [] => if rooted then cleanComponents rooted rest [] else cleanComponents rooted rest [comp]
    else cleanComponents rooted rest (comp :: kept)

/-- The function `path.Clean`: the shortest path naming the same place, `.` for an
empty result. -/
def pathClean (p : String) : String :=
  if p = "" then "."
  else
    let rooted : Bool := p.toList.head? = some '/'
    let body := String.mk
      (List.intercalate ['/'] (cleanComponents rooted (splitSlash p.toList []) []))
    if rooted then "/" ++ body else if body = "" then "." else body

/-- The call `path.Join(dir, name)`: the elements from the first non-empty one on,
joined by slashes and cleaned; the empty string when both are empty. -/
def pathJoin (dir name : String) : String :=
  if dir ≠ "" then pathClean (dir ++ "/" ++ name)
  else if name ≠ "" then pathClean name
  else ""

/-- The faults that can be injected into one import or export, and what the
environment hands out: the name `ioutil.TempFile` picks, the connection
`hvsock.Dial` returns.  `tmpLimit` and `vhdLimit` bound what the temporary file
and the disk-image file take before a write fails. -/
structure Faults where
  tempFile : Option Cause
  tmpName : String
  tmpLimit : Option Nat
  seek : Option Cause
  dial : Option Cause
  peer : Conn
  create : Option Cause
  vhdLimit : Option Nat
  close : Option Cause

/-- The function `connectToServer`: the dial is recorded, and fails when a fault
is injected. -/
def connectToServer (fl : Faults) (w : World) : Except Cause Conn × World :=
  let w1 := { w with log := w.log ++ [Call.dial] }
  match fl.dial with
  | some e => (.error e, w1)
  | none => (.ok fl.peer, w1)

/-- The function `writeVHDFile`.  `os.Create` makes the file empty; the error of
`io.Copy` is dropped and only its count kept; the result is that count with the
error of `f.Close()`. -/
def writeVHDFile (fl : Faults) (w : World) (path : String) (r : Conn) :
    Int × Option Cause × World × Conn :=
  let w1 := { w with log := w.log ++ [Call.osCreate path] }
  match fl.create with
  | some e => (0, some e, w1, r)
  | none =>
    match Copy r.closing r.reads ⟨[], fl.vhdLimit, Cause.other "write"⟩ 0 with
    | (n, _, f, rest) =>
      ((n : Int), fl.close,
        { w1 with files := (path, f.data) :: w1.files.filter (fun e => e.1 ≠ path),
                  log := w1.log ++ [Call.fileClose path] },
        { r with reads := rest })

/-- The deferred calls of `ServiceVMImportLayer` that run once the temporary file
exists: `tmpFile.Close()` and `os.Remove(tmpFile.Name())`. -/
def removeTemp (fl : Faults) (r : Int × Option Error × World) : Int × Option Error × World :=
  (r.1, r.2.1, { r.2.2 with tmp := r.2.2.tmp.filter (fun n => n ≠ fl.tmpName),
                            log := r.2.2.log ++ [Call.removeTemp fl.tmpName] })

/-- The deferred `conn.Close()` of `ServiceVMImportLayer`. -/
def closeConn (r : Int × Option Error × World) : Int × Option Error × World :=
  (r.1, r.2.1, { r.2.2 with log := r.2.2.log ++ [Call.connClose] })

/-- Lines 131 to 139 of `ServiceVMImportLayer`: with the declared size `rSize` and
the result `(fSize, err)` of `writeVHDFile`, `rSize` is zeroed when `err` is
not `nil`, then the two sizes are compared. -/
def compareSizes (rSize fSize : Int) (err : Option Cause) (w : World) :
    Int × Option Error × World :=
  let rSize1 := if err ≠ none then 0 else rSize
  if fSize ≠ rSize1 then (0, some (Error.sizeMismatch rSize1 fSize), w)
  else (rSize1, err.map Error.passed, w)

/-- Lines 122 to 139 of `ServiceVMImportLayer`: `waitForResponse`, `writeVHDFile`
and the comparison of the two sizes. -/
def receiveImage (k : Package) (fl : Faults) (w : World) (layerPath : String)
    (conn : Conn) : Int × Option Error × World :=
  match waitForResponse k.ResponseOKCmd conn with
  | (_, some e, _) => (0, some e, w)
  | (rSize, none, c2) =>
    match writeVHDFile fl w (pathJoin layerPath k.LayerVHDName) c2 with
    | (fSize, err, w1, _) => compareSizes rSize fSize err w1

/-- Lines 104 to 139 of `ServiceVMImportLayer`, which run with an open connection:
the header, `sendLayer`, then the response. -/
def sendAndReceive (k : Package) (fl : Faults) (w : World) (layerPath : String)
    (tmpFile : Reader) (conn : Conn) : Int × Option Error × World :=
  match k.SerializeHeader ⟨k.ImportCmd, 0, 0, 0⟩ with
  | .error e => (0, some (Error.passed e), w)
  | .ok buf =>
    match sendLayer conn buf tmpFile with
    | (some e, _) => (0, some (Error.passed e), w)
    | (none, c1) => receiveImage k fl w layerPath c1

/-- The function `ServiceVMImportLayer`. -/
def ServiceVMImportLayer (k : Package) (fl : Faults) (w : World) (layerPath : String)
    (reader : Reader) : Int × Option Error × World :=
  let w0 := { w with log := w.log ++ [Call.tempFile] }
  match fl.tempFile with
  | some e => (0, some (Error.passed e), w0)
  | none =>
    let w1 := { w0 with tmp := fl.tmpName :: w0.tmp }
    removeTemp fl (
      match Copy reader.closing reader.reads ⟨[], fl.tmpLimit, Cause.other "write"⟩ 0 with
      | (_, some e, _, _) => (0, some (Error.passed e), w1)
      | (_, none, tmpFile, _) =>
        match fl.seek with
        | some e => (0, some (Error.passed e), w1)
        | none =>
          match connectToServer fl w1 with
          | (.error e, w2) => (0, some (Error.passed e), w2)
          | (.ok conn, w2) =>
            closeConn (sendAndReceive k fl w2 layerPath ⟨[tmpFile.data], Cause.EOF⟩ conn))

/-- An `*os.File` opened for reading. -/
structure File where
  name : String
  content : List Byte
  deriving DecidableEq

/-- The call `os.Open(path)`: an error other than not-exist at a path where opening
is denied, whether or not a file is there; otherwise the file when it is
there and a not-exist error when it is absent. -/
def osOpen (w : World) (path : String) : Except Cause File × World :=
  let w1 := { w with log := w.log ++ [Call.osOpen path] }
  if path ∈ w.denied then (.error (Cause.other "open"), w1)
  else
    match w.files.lookup path with
    | none => (.error (Cause.notExist path), w1)
    | some content => (.ok ⟨path, content⟩, w1)

/-- The function `getVHDFile`. -/
def getVHDFile (w : World) (vhdPath : String) : Except Cause File × World :=
  match osOpen w (pathJoin vhdPath "layer.vhd") with
  | (.ok vhdFile, w1) => (.ok vhdFile, w1)
  | (.error err, w1) =>
    if !IsNotExist err then (.error err, w1)
    else osOpen w1 (pathJoin vhdPath "sandbox.vhdx")

/-- An `io.Pipe` seen from its read end: the bytes written to it so far, and how
the write end was closed (`none` while it is open, `io.EOF` after
`writer.Close()`, the given error after `writer.CloseWithError`). -/
structure Pipe where
  data : List Byte
  closed : Option Cause
  deriving DecidableEq

/-- The call `writer.Close()` on the write end of a pipe: the reader then gets
`io.EOF` after the bytes written. -/
def Pipe.Close (p : Pipe) : Pipe := { p with closed := some Cause.EOF }

/-- The goroutine that `ServiceVMExportLayer` starts: `io.Copy(writer, conn)` with
its result dropped, then the deferred `conn.Close()` and `writer.Close()`.  The
reader is taken to consume the pipe, so that writes to it do not fail. -/
def exportCopy (conn : Conn) : Pipe × Conn :=
  match Copy conn.closing conn.reads ⟨[], none, Cause.other "closed pipe"⟩ 0 with
  | (_, _, writer, rest) =>
    (Pipe.Close ⟨writer.data, none⟩, { conn with reads := rest, closed := true })

/-- The call `conn.Close()` on the error paths of `ServiceVMExportLayer`. -/
def connClose (w : World) : World := { w with log := w.log ++ [Call.connClose] }

/-- The function `ServiceVMExportLayer`.  The returned stream is described by the
pipe as the reader finds it once the goroutine has run; on that path the
connection is closed by the goroutine, on the error paths by the function. -/
def ServiceVMExportLayer (k : Package) (fl : Faults) (w : World) (vhdPath : String) :
    Option Pipe × Option Error × World :=
  match getVHDFile w vhdPath with
  | (.error err, w1) => (none, some (Error.passed err), w1)
  | (.ok vhdFile, w1) =>
    let closeFile := fun (r : Option Pipe × Option Error × World) =>
      (r.1, r.2.1, { r.2.2 with log := r.2.2.log ++ [Call.fileClose vhdFile.name] })
    closeFile (
      match connectToServer fl w1 with
      | (.error err, w2) => (none, some (Error.passed err), w2)
      | (.ok conn, w2) =>
        match k.SerializeHeader ⟨k.ExportCmd, 0, 0, 0⟩ with
        | .error err => (none, some (Error.passed err), connClose w2)
        | .ok buf =>
          match sendLayer conn buf ⟨[vhdFile.content], Cause.EOF⟩ with
          | (some err, _) => (none, some (Error.passed err), connClose w2)
          | (none, c1) =>
            match waitForResponse k.ResponseOKCmd c1 with
            | (_, some err, _) => (none, some err, connClose w2)
            | (_, none, c2) => (some (exportCopy c2).1, none, w2))

/-- Every step of `ServiceVMExportLayer` before `waitForResponse` succeeds: a disk
image is found and opened, the dial succeeds, the header is serialized and
`sendLayer` returns `nil`. -/
def exportReachesResponse (k : Package) (fl : Faults) (w : World) (vhdPath : String) : Bool :=
  match getVHDFile w vhdPath with
  | (.error _, _) => false
  | (.ok vhdFile, _) =>
    fl.dial.isNone &&
    (match k.SerializeHeader ⟨k.ExportCmd, 0, 0, 0⟩ with
      | .error _ => false
      | .ok buf => (sendLayer fl.peer buf ⟨[vhdFile.content], Cause.EOF⟩).1.isNone)

/-- Every step of `ServiceVMImportLayer` before `waitForResponse` succeeds: the
temporary file is created, filled and rewound, the dial succeeds, the header
is serialized and `sendLayer` returns `nil`. -/
def reachesResponse (k : Package) (fl : Faults) (reader : Reader) : Bool :=
  fl.tempFile.isNone &&
  (match Copy reader.closing reader.reads ⟨[], fl.tmpLimit, Cause.other "write"⟩ 0 with
    | (_, some _, _, _) => false
    | (_, none, tmpFile, _) =>
      fl.seek.isNone && fl.dial.isNone &&
      (match k.SerializeHeader ⟨k.ImportCmd, 0, 0, 0⟩ with
        | .error _ => false
        | .ok buf => (sendLayer fl.peer buf ⟨[tmpFile.data], Cause.EOF⟩).1.isNone))

end winlx

namespace graph

/-- The Go error values `Register` produces or passes on. -/
inductive Error where
  /-- What `utils.ValidateID` returns for an id of the wrong format. -/
  | invalidID (id : String)
  /-- The error `fmt.Errorf("Image %s already exists", img.ID)`. -/
  | alreadyExists (id : String)
  /-- The error `fmt.Errorf("Mktemp failed: %s", err)`. -/
  | mktempFailed (cause : String)
  /-- The error `fmt.Errorf("Driver %s failed to copy image rootfs %s: %s", ..)`. -/
  | copyFailed (driver container cause : String)
  /-- The error `fmt.Errorf("Driver %s failed to create image rootfs %s: %s", ..)`. -/
  | createFailed (driver id cause : String)
  /-- An error of the operating system or of a collaborator, passed on as it is;
  `notExist` is what `os.IsNotExist` says of it. -/
  | os (cause : String) (notExist : Bool)
  deriving DecidableEq

/-- The test `os.IsNotExist(err)`. -/
def IsNotExist : Error → Bool
  | .os _ b => b
  | _ => false

/-- The fields of `image.Image` that `Register` reads. -/
structure Image where
  ID : String
  Parent : String
  Container : String
  deriving DecidableEq

/-- What `Register` asks of its collaborators, oldest call first. -/
inductive Call where
  | driverRemove (id : String)
  | driverCreate (id parent : String)
  | copyDiff (container id : String) (paths : List String)
  | removeAll (path : String)
  | mktemp
  | get (id : String)
  | parentLayerIds (id : String)
  | setGraph (id : String)
  | storeImage (id dir : String)
  | rename (src dst : String)
  | indexAdd (id : String)
  deriving DecidableEq

/-- The store: the committed index, the directories that exist on the store's
file system (final per-id directories and staging directories), the ids the
backend driver holds state for, and the calls made so far. -/
structure State where
  idIndex : List String
  dirs : List String
  driver : List String
  log : List Call
  deriving DecidableEq

/-- The declarations `Register` uses from files outside this excerpt; they are
parameters of the embedding: the validator `utils.ValidateID`, the per-id final
directory `graph.ImageRoot`, whether `graph.driver` is a
`*windows.WindowsGraphDriver`, the driver's name, and `wd.LayerIdsToPaths`. -/
structure Graph where
  ValidateID : String → Option Error
  ImageRoot : String → String
  driverIsWindows : Bool
  driverName : String
  LayerIdsToPaths : List String → List String

/-- The faults that can be injected into one `Register` call, one per call site,
and what the environment hands out: the directory `graph.Mktemp` creates, the
ids `graph.ParentLayerIds` returns.  `leftover` says whether a failing
`Create` or `CopyDiff` leaves driver state for the id behind. -/
structure Faults where
  removeAllRoot : Option Error
  driverRemove : Bool
  mktemp : Option String
  tmp : String
  get : Option Error
  parentLayerIds : Option Error
  ids : List String
  copyDiff : Option String
  create : Option String
  leftover : Bool
  storeImage : Option Error
  rename : Option Error
  removeAllTmp : Bool
  deferredRemove : Bool

/-- Modelled from the spec: `graph.Exists` (graph.go is not among the sources),
"the identifier already exists in the Committed Index". -/
def Exists (s : State) (id : String) : Bool := decide (id ∈ s.idIndex)

/-- Modelled from the spec: `graph.idIndex.Add` (the index type is not among the
sources), the id enters the committed index. -/
def idIndexAdd (s : State) (id : String) : State :=
  { s with idIndex := id :: s.idIndex, log := s.log ++ [Call.indexAdd id] }

/-- The call `graph.driver.Remove(id)` with its error dropped: the driver forgets
the id unless the call fails. -/
def driverRemove (fails : Bool) (s : State) (id : String) : State :=
  { s with driver := if fails then s.driver else s.driver.filter (fun d => d ≠ id),
           log := s.log ++ [Call.driverRemove id] }

/-- The call `os.RemoveAll(path)`: `nil` and nothing done for the empty path,
otherwise the directory is gone unless the call fails. -/
def osRemoveAll (fault : Option Error) (s : State) (path : String) : Option Error × State :=
  let s1 := { s with log := s.log ++ [Call.removeAll path] }
  if path = "" then (none, s1)
  else match fault with
    | some e => (some e, s1)
    | none => (none, { s1 with dirs := s1.dirs.filter (fun d => d ≠ path) })

/-- The call `graph.Mktemp("")`: a new staging directory, or the empty path and
an error. -/
def Mktemp (fl : Faults) (s : State) : String × Option String × State :=
  let s1 := { s with log := s.log ++ [Call.mktemp] }
  match fl.mktemp with
  | some cause => ("", some cause, s1)
  | none => (fl.tmp, none, { s1 with dirs := fl.tmp :: s1.dirs })

/-- The call `graph.driver.Create(id, parent)`. -/
def driverCreate (fl : Faults) (s : State) (id parent : String) : Option String × State :=
  let s1 := { s with log := s.log ++ [Call.driverCreate id parent] }
  match fl.create with
  | some cause => (some cause, if fl.leftover then { s1 with driver := id :: s1.driver } else s1)
  | none => (none, { s1 with driver := id :: s1.driver })

/-- The call `wd.CopyDiff(container, id, paths)`. -/
def CopyDiff (fl : Faults) (s : State) (container id : String) (paths : List String) :
    Option String × State :=
  let s1 := { s with log := s.log ++ [Call.copyDiff container id paths] }
  match fl.copyDiff with
  | some cause => (some cause, if fl.leftover then { s1 with driver := id :: s1.driver } else s1)
  | none => (none, { s1 with driver := id :: s1.driver })

/-- The call `os.Rename(src, dst)`: indivisible, so a failing rename changes
nothing. -/
def osRename (fl : Faults) (s : State) (src dst : String) : Option Error × State :=
  let s1 := { s with log := s.log ++ [Call.rename src dst] }
  match fl.rename with
  | some e => (some e, s1)
  | none => (none, { s1 with dirs := dst :: s1.dirs.filter (fun d => d ≠ src) })

/-- One recorded call that leaves the store as it is (`graph.Get`,
`graph.ParentLayerIds`, `img.SetGraph`, `image.StoreImage`, which writes inside
the staging directory only). -/
def record (s : State) (c : Call) : State := { s with log := s.log ++ [c] }

/-- Lines 62 to 96 of `Register`: the materialization branch, the diff, the
rename and the index entry, with the staging directory `tmp` in hand. -/
def registerStaged (g : Graph) (fl : Faults) (s : State) (img : Image)
    (layerData : Option (List Nat)) (tmp : String) : Option Error × State :=
  let materialized : Option Error × State :=
    if g.driverIsWindows ∧ img.Container ≠ "" ∧ layerData = none then
      let s1 := record s (Call.get img.Parent)
      match fl.get with
      | some e => (some e, s1)
      | none =>
        let s2 := record s1 (Call.parentLayerIds img.Parent)
        match fl.parentLayerIds with
        | some e => (some e, s2)
        | none =>
          match CopyDiff fl s2 img.Container img.ID (g.LayerIdsToPaths fl.ids) with
          | (some cause, s3) => (some (Error.copyFailed g.driverName img.Container cause), s3)
          | (none, s3) => (none, s3)
    else
      match driverCreate fl s img.ID img.Parent with
      | (some cause, s1) => (some (Error.createFailed g.driverName img.ID cause), s1)
      | (none, s1) => (none, s1)
  match materialized with
  | (some e, s1) => (some e, s1)
  | (none, s1) =>
    let s2 := record (record s1 (Call.setGraph img.ID)) (Call.storeImage img.ID tmp)
    match fl.storeImage with
    | some e => (some e, s2)
    | none =>
      match osRename fl s2 tmp (g.ImageRoot img.ID) with
      | (some e, s3) => (some e, s3)
      | (none, s3) => (none, idIndexAdd s3 img.ID)

/-- Lines 54 to 96 of `Register`, the deferred `os.RemoveAll(tmp)` included: it
is registered at line 57, before the error of `Mktemp` is looked at, and runs
on every return after that. -/
def registerFresh (g : Graph) (fl : Faults) (s : State) (img : Image)
    (layerData : Option (List Nat)) : Option Error × State :=
  let s1 := driverRemove fl.driverRemove s img.ID
  match Mktemp fl s1 with
  | (tmp, mkErr, s2) =>
    let removeTmp := fun (r : Option Error × State) =>
      (r.1, (osRemoveAll (if fl.removeAllTmp then some (Error.os "remove" false) else none)
        r.2 tmp).2)
    removeTmp (
      match mkErr with
      | some cause => (some (Error.mktempFailed cause), s2)
      | none => registerStaged g fl s2 img layerData tmp)

/-- Lines 35 to 96 of `Register`. -/
def registerBody (g : Graph) (fl : Faults) (s : State) (img : Image)
    (layerData : Option (List Nat)) : Option Error × State :=
  match g.ValidateID img.ID with
  | some e => (some e, s)
  | none =>
    if Exists s img.ID then (some (Error.alreadyExists img.ID), s)
    else
      match osRemoveAll fl.removeAllRoot s (g.ImageRoot img.ID) with
      | (some e, s1) =>
        if !IsNotExist e then (some e, s1) else registerFresh g fl s1 img layerData
      | (none, s1) => registerFresh g fl s1 img layerData

/-- The method `Graph.Register`: the body, then the deferred function of lines 27
to 34, which calls `graph.driver.Remove(img.ID)` whenever the error returned is
not `nil`. -/
def Register (g : Graph) (fl : Faults) (s : State) (img : Image)
    (layerData : Option (List Nat)) : Option Error × State :=
  match registerBody g fl s img layerData with
  | (some e, s1) => (some e, driverRemove fl.deferredRemove s1 img.ID)
  | (none, s1) => (none, s1)

end graph


/-! ## Concrete inputs -/

namespace winlx

/-- A package whose OK status is 1 and whose disk image is called `layer.vhd`. -/
def examplePackage : Package := ⟨1, 1, 2, "layer.vhd", fun _ => .ok [1, 0, 0, 0]⟩

/-- A connection that delivers the given chunks and then ends as given, with no
fault on its outgoing side. -/
def exampleConn (reads : List (List Byte)) (closing : Cause) : Conn :=
  ⟨reads, closing, ⟨[], none, Cause.other "write"⟩, none, false, false⟩

/-- No fault injected; the dial returns the given connection. -/
def exampleFaults (peer : Conn) : Faults :=
  ⟨none, "docker-tar1", none, none, none, peer, none, none, none⟩

/-- The same, with an `os.Create` that fails. -/
def exampleCreateFails (peer : Conn) : Faults :=
  ⟨none, "docker-tar1", none, none, none, peer, some (Cause.other "access denied"), none, none⟩

/-- A machine with one layer directory `L` holding a disk image. -/
def exampleWorld : World := ⟨[("L/layer.vhd", [1, 2])], [], [], []⟩

/-- A machine on which the directory `P` holds no disk image and may not be
searched, so that `os.Open` of anything below `P` fails with a permission error. -/
def exampleNoAccess : World := ⟨[], ["P/layer.vhd", "P/sandbox.vhdx"], [], []⟩

/-- A two-byte layer stream. -/
def exampleReader : Reader := ⟨[[1], [2]], Cause.EOF⟩

/-- A response of OK status declaring three bytes, followed by three bytes, split
over four reads. -/
def exampleThree : Conn := exampleConn [[1, 0, 0], [0, 0, 0, 0, 0, 0, 0, 0, 3], [9, 9], [7]] Cause.EOF

/-- The machine after the import of that response into layer directory `L`. -/
def exampleImported : World :=
  ⟨[("L/layer.vhd", [9, 9, 7])], [], [],
    [Call.tempFile, Call.dial, Call.osCreate "L/layer.vhd", Call.fileClose "L/layer.vhd",
      Call.connClose, Call.removeTemp "docker-tar1"]⟩

/-- A header of OK status declaring 500 bytes. -/
def header500 : List Byte := [1, 0, 0, 0, 0, 0, 0, 0, 0, 0, 1, 244]

/-- A response declaring 500 bytes of which 480 arrive before the remote closes. -/
def exampleShortPayload : Conn := exampleConn [header500, List.replicate 480 0] Cause.EOF

/-- A response of OK status whose size field has its top bit set. -/
def exampleTopBit : Conn := exampleConn [[1, 0, 0, 0, 128, 0, 0, 0, 0, 0, 0, 0]] Cause.EOF

/-- A stream that ends cleanly after six bytes, the first being the OK status. -/
def exampleSixBytes : Conn := exampleConn [[1, 0, 0], [0, 0, 0]] Cause.EOF

/-- A response of OK status followed by three bytes, after which the channel
fails with a read error. -/
def exampleReset : Conn :=
  exampleConn [[1, 0, 0, 0, 0, 0, 0, 0, 0, 0, 0, 9], [5, 6, 7]] (Cause.other "connection reset")

/-- A header whose status byte is 0, not the OK status 1. -/
def headerFailed : List Byte := [0, 7, 7, 7, 0, 0, 0, 0, 0, 0, 0, 3]

/-- A response with that header, followed by three bytes. -/
def exampleFailed : Conn := exampleConn [headerFailed, [9, 9, 7]] Cause.EOF

end winlx

namespace graph

/-- A layer id of the valid format. -/
def exampleID : String := "aaaaaaaaaaaaaaaaaaaaaaaaaaaaaaaaaaaaaaaaaaaaaaaaaaaaaaaaaaaaaaaa"

/-- Another one. -/
def otherID : String := "bbbbbbbbbbbbbbbbbbbbbbbbbbbbbbbbbbbbbbbbbbbbbbbbbbbbbbbbbbbbbbbb"

/-- A graph rooted at `/g` whose validator accepts ids of 64 characters out of
`0123456789abcdef`, with a driver that is not the Windows one. -/
def exampleGraph : Graph :=
  ⟨fun id => if id.length = 64 ∧ id.toList.all (fun c => c ∈ "0123456789abcdef".toList) then none
      else some (Error.invalidID id),
    fun id => "/g/" ++ id, false, "vfs", fun ids => ids⟩

/-- No fault injected; `Mktemp` hands out `/g/_tmp/1`. -/
def noFaults : Faults :=
  ⟨none, false, none, "/g/_tmp/1", none, none, [], none, none, false, none, none, false, false⟩

/-- The final rename fails, and so does the removal of the staging directory. -/
def renameFails : Faults :=
  ⟨none, false, none, "/g/_tmp/1", none, none, [], none, none, false, none,
    some (Error.os "rename" false), true, false⟩

/-- A store with `exampleID` committed, and a directory left over for `otherID`
that the index does not know. -/
def exampleState : State :=
  ⟨[exampleID], ["/g/" ++ exampleID, "/g/" ++ otherID], [exampleID, otherID], []⟩

end graph

/-! ## The transfer protocol: lemmas -/

namespace winlx

/-- When the reader still holds enough bytes, the read loop fills the buffer
with the next bytes of the stream and leaves the rest on the reader. -/
theorem readLoop_enough (min : Nat) (cl : Cause) :
    ∀ (reads : List (List Byte)) (buf : List Byte), buf.length ≤ min →
      min ≤ buf.length + reads.flatten.length →
      ∃ rest, readLoop min cl reads buf = ((buf ++ reads.flatten).take min, none, rest) ∧
        rest.flatten = (buf ++ reads.flatten).drop min := by
  intro reads
  induction reads with
  | nil =>
    intro buf h1 h2
    simp only [List.flatten_nil, List.length_nil, Nat.add_zero, List.append_nil] at h2 ⊢
    refine ⟨[], ?_, ?_⟩
    · simp [readLoop, h2, List.take_of_length_le h1]
    · simp [List.drop_of_length_le h1]
  | cons chunk rest ih =>
    intro buf h1 h2
    simp only [List.flatten_cons, List.length_append] at h2
    by_cases hfull : min ≤ buf.length
    · have hlen : buf.length = min := Nat.le_antisymm h1 hfull
      refine ⟨chunk :: rest, ?_, ?_⟩
      · simp [readLoop, hfull, List.take_append_eq_append_take, hlen]
      · simp [List.drop_append_eq_append_drop, hlen]
    · by_cases hfit : chunk.length ≤ min - buf.length
      · have h3 : (buf ++ chunk).length ≤ min := by
          simp only [List.length_append]; omega
        have h4 : min ≤ (buf ++ chunk).length + rest.flatten.length := by
          simp only [List.length_append]; omega
        obtain ⟨r, hr1, hr2⟩ := ih (buf ++ chunk) h3 h4
        refine ⟨r, ?_, ?_⟩
        · simp only [readLoop, hfull, hfit, if_true, if_false, List.flatten_cons]
          rw [hr1, List.append_assoc]
        · rw [hr2, List.flatten_cons, List.append_assoc]
      · refine ⟨chunk.drop (min - buf.length) :: rest, ?_, ?_⟩
        · simp only [readLoop, hfull, hfit, if_false, List.flatten_cons]
          have hk : min - buf.length ≤ chunk.length := by omega
          rw [List.take_append_eq_append_take, List.take_of_length_le h1,
            List.take_append_of_le_length hk]
        · simp only [List.flatten_cons]
          have hk : min - buf.length ≤ chunk.length := by omega
          rw [List.drop_append_eq_append_drop, List.drop_of_length_le h1,
            List.drop_append_of_le_length hk, List.nil_append]

/-- When the reader runs dry before the buffer is full, the read loop returns
every byte of the stream together with the reader's closing error. -/
theorem readLoop_short (min : Nat) (cl : Cause) :
    ∀ (reads : List (List Byte)) (buf : List Byte),
      buf.length + reads.flatten.length < min →
      readLoop min cl reads buf = (buf ++ reads.flatten, some cl, []) := by
  intro reads
  induction reads with
  | nil =>
    intro buf h
    simp only [List.flatten_nil, List.length_nil, Nat.add_zero] at h
    simp [readLoop, Nat.not_le.mpr h]
  | cons chunk rest ih =>
    intro buf h
    simp only [List.flatten_cons, List.length_append] at h
    have hfull : ¬ min ≤ buf.length := by omega
    have hfit : chunk.length ≤ min - buf.length := by omega
    have h3 : (buf ++ chunk).length + rest.flatten.length < min := by
      simp only [List.length_append]; omega
    simp only [readLoop, hfull, hfit, if_true, if_false, List.flatten_cons]
    rw [ih (buf ++ chunk) h3, List.append_assoc]

/-- A stream of at least `size` bytes: `io.ReadFull` returns the first `size`
bytes and no error, and the reader keeps the rest. -/
theorem ReadFull_enough (c : Conn) (size : Nat) (h : size ≤ c.reads.flatten.length) :
    ∃ c1, ReadFull c size = (c.reads.flatten.take size, none, c1) ∧
      c1.reads.flatten = c.reads.flatten.drop size ∧ c1.closing = c.closing := by
  obtain ⟨rest, hr1, hr2⟩ := readLoop_enough size c.closing c.reads [] (Nat.zero_le _)
    (by simpa using h)
  simp only [List.nil_append] at hr1 hr2
  refine ⟨{ c with reads := rest }, ?_, hr2, rfl⟩
  simp only [ReadFull, hr1]
  have hl : size ≤ (List.take size c.reads.flatten).length := by
    rw [List.length_take]; omega
  simp [hl]

/-- A stream of fewer than `size` bytes: `io.ReadFull` fails, with
`io.ErrUnexpectedEOF` when at least one byte came and the stream then ended in
`io.EOF`, and with the reader's own closing error otherwise. -/
theorem ReadFull_short (c : Conn) (size : Nat) (h : c.reads.flatten.length < size) :
    ReadFull c size = (c.reads.flatten,
      some (if c.reads.flatten ≠ [] ∧ c.closing = Cause.EOF then Cause.ErrUnexpectedEOF
        else c.closing), { c with reads := [] }) := by
  have hr := readLoop_short size c.closing c.reads [] (by simpa using h)
  simp only [List.nil_append] at hr
  simp only [ReadFull, hr, Nat.not_le.mpr h, if_false]
  by_cases h1 : c.reads.flatten = []
  · have hz : ¬ (0 < c.reads.flatten.length) := by rw [h1]; simp
    rw [if_neg (fun hh => hz hh.1), if_neg (fun hh => hh.1 h1)]
  · have hpos : 0 < c.reads.flatten.length := List.length_pos.mpr h1
    by_cases h2 : c.closing = Cause.EOF
    · rw [if_pos ⟨hpos, by rw [h2]⟩, if_pos ⟨h1, h2⟩]
    · rw [if_neg (fun hh => h2 (Option.some.inj hh.2)), if_neg (fun hh => h2 hh.2)]

/-- What `waitForResponse` does with a stream of at least twelve bytes: the
status byte decides, and the reader keeps what follows the header. -/
theorem waitForResponse_enough (ok : Byte) (c : Conn) (hdr payload : List Byte)
    (hlen : hdr.length = 12) (hc : c.reads.flatten = hdr ++ payload) :
    ∃ c1, c1.reads.flatten = payload ∧ c1.closing = c.closing ∧
      waitForResponse ok c =
        if hdr.getD 0 0 ≠ ok then (0, some Error.serviceVMFailed, c1)
        else (int64 (BigEndianUint64 (hdr.drop 4)), none, c1) := by
  have h12 : 12 ≤ c.reads.flatten.length := by
    rw [hc, List.length_append]; omega
  obtain ⟨c1, h1, h2, h3⟩ := ReadFull_enough c 12 h12
  rw [hc, List.take_left' hlen] at h1
  rw [hc, List.drop_left' hlen] at h2
  refine ⟨c1, h2, h3, ?_⟩
  simp only [waitForResponse, h1]

/-- What `waitForResponse` does with a stream of fewer than twelve bytes. -/
theorem waitForResponse_of_short (ok : Byte) (c : Conn) (h : c.reads.flatten.length < 12) :
    waitForResponse ok c = (0,
      some (Error.passed (if c.reads.flatten ≠ [] ∧ c.closing = Cause.EOF
        then Cause.ErrUnexpectedEOF else c.closing)), { c with reads := [] }) := by
  simp only [waitForResponse, ReadFull_short c 12 h]

/-- A big-endian value of eight bytes is below `2 ^ 64`. -/
theorem BigEndianUint64_lt (b : List Byte) : BigEndianUint64 b < 2 ^ 64 := by
  unfold BigEndianUint64
  have h0 := (b.getD 0 0).isLt
  have h1 := (b.getD 1 0).isLt
  have h2 := (b.getD 2 0).isLt
  have h3 := (b.getD 3 0).isLt
  have h4 := (b.getD 4 0).isLt
  have h5 := (b.getD 5 0).isLt
  have h6 := (b.getD 6 0).isLt
  have h7 := (b.getD 7 0).isLt
  norm_num
  omega

/-- Below `2 ^ 63` the conversion to `int64` keeps the value. -/
theorem int64_of_lt (u : Nat) (h : u < 2 ^ 63) : int64 u = (u : Int) := by
  have h1 : u % 2 ^ 64 = u := Nat.mod_eq_of_lt (by omega)
  simp only [int64, h1, h, if_true]

/-- A non-negative `int64` of a value below `2 ^ 64` is that value. -/
theorem int64_nonneg (u : Nat) (hu : u < 2 ^ 64) (h : 0 ≤ int64 u) : int64 u = (u : Int) := by
  have h1 : u % 2 ^ 64 = u := Nat.mod_eq_of_lt hu
  unfold int64 at h ⊢
  rw [h1] at h ⊢
  split
  · rfl
  · rename_i hh
    rw [if_neg hh] at h
    omega

/-- One `Write` adds to the destination as many bytes as it reports. -/
theorem Sink.Write_length (dst : Sink) (p : List Byte) :
    (dst.Write p).2.2.data.length = dst.data.length + (dst.Write p).1 := by
  unfold Sink.Write
  split
  · simp
  · split
    · simp
    · simp only [List.length_append, List.length_take]
      omega

/-- The count `io.Copy` returns is the number of bytes the destination gained. -/
theorem Copy_written (cl : Cause) :
    ∀ (reads : List (List Byte)) (dst : Sink) (written : Nat),
      (Copy cl reads dst written).1 + dst.data.length =
        written + (Copy cl reads dst written).2.2.1.data.length := by
  intro reads
  induction reads with
  | nil => intro dst written; simp [Copy]
  | cons chunk rest ih =>
    intro dst written
    have hw := Sink.Write_length dst chunk
    rcases hres : dst.Write chunk with ⟨nw, ew, dst1⟩
    rw [hres] at hw
    simp only at hw
    cases ew with
    | some e => simp only [Copy, hres]; omega
    | none =>
      simp only [Copy, hres]
      have := ih dst1 (written + nw)
      omega

/-- A destination without a write fault takes the whole stream, and the copy
fails exactly when the source did not end in `io.EOF`. -/
theorem Copy_unlimited (cl : Cause) :
    ∀ (reads : List (List Byte)) (dst : Sink) (written : Nat), dst.limit = none →
      (Copy cl reads dst written).2.2.1.data = dst.data ++ reads.flatten ∧
      (Copy cl reads dst written).2.1 = (if cl = Cause.EOF then none else some cl) := by
  intro reads
  induction reads with
  | nil => intro dst written _; simp [Copy]
  | cons chunk rest ih =>
    intro dst written hlim
    have hres : dst.Write chunk = (chunk.length, none, { dst with data := dst.data ++ chunk }) := by
      simp [Sink.Write, hlim]
    simp only [Copy, hres]
    have := ih { dst with data := dst.data ++ chunk } (written + chunk.length) hlim
    simpa [List.append_assoc] using this

/-- The function `sendLayer` leaves the incoming side of the connection alone. -/
theorem sendLayer_reads (c : Conn) (hdr : List Byte) (r : Reader) :
    (sendLayer c hdr r).2.reads = c.reads ∧ (sendLayer c hdr r).2.closing = c.closing := by
  unfold sendLayer
  split
  · simp
  · split <;> simp

/-- What `writeVHDFile` does: nothing but the failed `os.Create` when that fails,
otherwise a file whose length is the count returned, with the error of
`f.Close()`. -/
theorem writeVHDFile_spec (fl : Faults) (w : World) (path : String) (r : Conn) :
    (∀ e, fl.create = some e →
      writeVHDFile fl w path r = (0, some e, { w with log := w.log ++ [Call.osCreate path] }, r)) ∧
    (fl.create = none →
      ∃ (content : List Byte) (w1 : World) (r1 : Conn),
        writeVHDFile fl w path r = ((content.length : Int), fl.close, w1, r1) ∧
        w1.files.lookup path = some content) := by
  constructor
  · intro e he
    simp [writeVHDFile, he]
  · intro hc
    have hw := Copy_written r.closing r.reads ⟨[], fl.vhdLimit, Cause.other "write"⟩ 0
    simp only [List.length_nil, Nat.add_zero, Nat.zero_add] at hw
    refine ⟨(Copy r.closing r.reads ⟨[], fl.vhdLimit, Cause.other "write"⟩ 0).2.2.1.data,
      (writeVHDFile fl w path r).2.2.1, (writeVHDFile fl w path r).2.2.2, ?_, ?_⟩
    · simp only [writeVHDFile, hc]
      rw [hw]
    · simp only [writeVHDFile, hc, List.lookup_cons, beq_self_eq_true]

/-- The comparison of lines 131 to 139 when `writeVHDFile` returned no error. -/
theorem compareSizes_none (rSize fSize : Int) (w : World) :
    compareSizes rSize fSize none w =
      if fSize = rSize then (rSize, none, w) else (0, some (Error.sizeMismatch rSize fSize), w) := by
  unfold compareSizes
  by_cases h : fSize = rSize <;> simp [h]

/-- The comparison of lines 131 to 139 when `writeVHDFile` returned an error: the
declared size is zeroed first, so the file's error is returned when no byte
was counted, and a size mismatch against zero otherwise. -/
theorem compareSizes_some (rSize fSize : Int) (e : Cause) (w : World) :
    compareSizes rSize fSize (some e) w =
      if fSize = 0 then (0, some (Error.passed e), w)
      else (0, some (Error.sizeMismatch 0 fSize), w) := by
  unfold compareSizes
  by_cases h : fSize = 0 <;> simp [h]

/-- The shape of every run of `ServiceVMImportLayer`: either it fails before the
response is awaited, returning 0 with an error and leaving the files alone, or
it is the run of lines 122 to 139 on a connection whose incoming side is the
peer's, followed by the deferred calls. -/
theorem ServiceVMImportLayer_cases (k : Package) (fl : Faults) (w : World) (layerPath : String)
    (reader : Reader) :
    (reachesResponse k fl reader = false ∧
      (ServiceVMImportLayer k fl w layerPath reader).1 = 0 ∧
      (ServiceVMImportLayer k fl w layerPath reader).2.1 ≠ none ∧
      (ServiceVMImportLayer k fl w layerPath reader).2.2.files = w.files) ∨
    (reachesResponse k fl reader = true ∧
      ∃ (c1 : Conn) (w2 : World), c1.reads = fl.peer.reads ∧ c1.closing = fl.peer.closing ∧
        w2.files = w.files ∧ w2.log = w.log ++ [Call.tempFile, Call.dial] ∧
        ServiceVMImportLayer k fl w layerPath reader =
          removeTemp fl (closeConn (receiveImage k fl w2 layerPath c1))) := by
  unfold ServiceVMImportLayer reachesResponse
  cases htf : fl.tempFile with
  | some e => left; simp
  | none =>
    simp only [Option.isNone_none, Bool.true_and]
    rcases hcp : Copy reader.closing reader.reads ⟨[], fl.tmpLimit, Cause.other "write"⟩ 0
      with ⟨n, ce, tmpFile, rest⟩
    cases ce with
    | some e => left; simp [removeTemp]
    | none =>
      simp only
      cases hsk : fl.seek with
      | some e => left; simp [removeTemp]
      | none =>
        cases hd : fl.dial with
        | some e => left; simp [removeTemp, connectToServer, hd]
        | none =>
          simp only [connectToServer, hd, Option.isNone_none, Bool.true_and, sendAndReceive]
          cases hs : k.SerializeHeader ⟨k.ImportCmd, 0, 0, 0⟩ with
          | error e => left; simp [removeTemp, closeConn]
          | ok buf =>
            simp only
            have hr := sendLayer_reads fl.peer buf ⟨[tmpFile.data], Cause.EOF⟩
            rcases hsl : sendLayer fl.peer buf ⟨[tmpFile.data], Cause.EOF⟩ with ⟨se, c1⟩
            rw [hsl] at hr
            cases se with
            | some e => left; simp [removeTemp, closeConn]
            | none =>
              right
              have hlog : w.log ++ [Call.tempFile] ++ [Call.dial] =
                  w.log ++ [Call.tempFile, Call.dial] := by simp
              exact ⟨rfl, c1, ⟨w.files, w.denied, fl.tmpName :: w.tmp,
                w.log ++ [Call.tempFile] ++ [Call.dial]⟩, hr.1, hr.2, rfl, hlog, rfl⟩

/-- Lines 122 to 139 on a stream that starts with a full header: a status byte
other than OK ends the import at once; otherwise the disk image is written from
what follows the header and its size compared with the declared one. -/
theorem receiveImage_of_header (k : Package) (fl : Faults) (w : World) (layerPath : String)
    (c : Conn) (hdr payload : List Byte) (hlen : hdr.length = 12)
    (hc : c.reads.flatten = hdr ++ payload) :
    (hdr.getD 0 0 ≠ k.ResponseOKCmd →
      receiveImage k fl w layerPath c = (0, some Error.serviceVMFailed, w)) ∧
    (hdr.getD 0 0 = k.ResponseOKCmd →
      ∃ c2 : Conn, c2.reads.flatten = payload ∧ c2.closing = c.closing ∧
        receiveImage k fl w layerPath c =
          compareSizes (int64 (BigEndianUint64 (hdr.drop 4)))
            (writeVHDFile fl w (pathJoin layerPath k.LayerVHDName) c2).1
            (writeVHDFile fl w (pathJoin layerPath k.LayerVHDName) c2).2.1
            (writeVHDFile fl w (pathJoin layerPath k.LayerVHDName) c2).2.2.1) := by
  obtain ⟨c2, h1, h2, h3⟩ := waitForResponse_enough k.ResponseOKCmd c hdr payload hlen hc
  constructor
  · intro hst
    unfold receiveImage
    rw [h3, if_pos hst]
  · intro hst
    refine ⟨c2, h1, h2, ?_⟩
    unfold receiveImage
    rw [h3, if_neg (not_not.mpr hst)]

/-- Lines 122 to 139 on a stream that ends before the header is complete: nothing
is written and the call fails. -/
theorem receiveImage_short (k : Package) (fl : Faults) (w : World) (layerPath : String)
    (c : Conn) (h : c.reads.flatten.length < 12) :
    (receiveImage k fl w layerPath c).1 = 0 ∧
    (receiveImage k fl w layerPath c).2.1 ≠ none ∧
    (receiveImage k fl w layerPath c).2.2 = w := by
  unfold receiveImage
  rw [waitForResponse_of_short _ c h]
  simp

/-- A stream of at least twelve bytes is a twelve-byte header followed by a
payload. -/
theorem header_split (l : List Byte) (h : 12 ≤ l.length) :
    ∃ hdr payload : List Byte, l = hdr ++ payload ∧ hdr.length = 12 :=
  ⟨l.take 12, l.drop 12, (List.take_append_drop 12 l).symm, by
    rw [List.length_take]; omega⟩

end winlx

/-! ## The transfer protocol: the claims -/

namespace winlx

/-- C2.  Whenever `ServiceVMImportLayer` returns a `nil` error, the incoming stream
started with a full twelve-byte header, the destination disk-image file holds
exactly as many bytes as bytes 4 to 11 of that header declare (read as a
big-endian unsigned integer), and the count returned is that same number. -/
theorem ServiceVMImportLayer_success_size (k : Package) (fl : Faults) (w : World)
    (layerPath : String) (reader : Reader) (n : Int) (w1 : World)
    (h : ServiceVMImportLayer k fl w layerPath reader = (n, none, w1)) :
    ∃ hdr payload content : List Byte,
      fl.peer.reads.flatten = hdr ++ payload ∧ hdr.length = 12 ∧
      w1.files.lookup (pathJoin layerPath k.LayerVHDName) = some content ∧
      content.length = BigEndianUint64 (hdr.drop 4) ∧
      n = (content.length : Int) := by
  rcases ServiceVMImportLayer_cases k fl w layerPath reader with hfail | ⟨_, c1, w2, hr, _, _, _, heq⟩
  · rw [h] at hfail
    exact absurd rfl hfail.2.2.1
  · rw [h] at heq
    rcases hres : receiveImage k fl w2 layerPath c1 with ⟨m, e, w3⟩
    rw [hres] at heq
    simp only [removeTemp, closeConn, Prod.mk.injEq] at heq
    obtain ⟨hn, he, hw⟩ := heq
    subst hn
    subst he
    have hf : w1.files = w3.files := by rw [hw]
    by_cases hshort : c1.reads.flatten.length < 12
    · have := (receiveImage_short k fl w2 layerPath c1 hshort).2.1
      rw [hres] at this
      exact absurd rfl this
    · obtain ⟨hdr, payload, hsplit, hlen⟩ := header_split c1.reads.flatten (by omega)
      obtain ⟨hbad, hok⟩ := receiveImage_of_header k fl w2 layerPath c1 hdr payload hlen hsplit
      have hcreate := writeVHDFile_spec fl w2 (pathJoin layerPath k.LayerVHDName)
      by_cases hst : hdr.getD 0 0 = k.ResponseOKCmd
      · obtain ⟨c2, _, _, heq2⟩ := hok hst
        rw [hres] at heq2
        cases hcr : fl.create with
        | some e =>
          rw [(hcreate c2).1 e hcr, compareSizes_some] at heq2
          simp at heq2
        | none =>
          obtain ⟨content, w4, r1, hwv, hlook⟩ := (hcreate c2).2 hcr
          rw [hwv] at heq2
          cases hcl : fl.close with
          | some e =>
            rw [hcl, compareSizes_some] at heq2
            split at heq2 <;> simp at heq2
          | none =>
            rw [hcl, compareSizes_none] at heq2
            by_cases hsz : (content.length : Int) = int64 (BigEndianUint64 (hdr.drop 4))
            · rw [if_pos hsz] at heq2
              simp only [Prod.mk.injEq, true_and] at heq2
              obtain ⟨hn, hw4⟩ := heq2
              have hnn : 0 ≤ int64 (BigEndianUint64 (hdr.drop 4)) := by
                rw [← hsz]; exact Int.natCast_nonneg _
              have hval := int64_nonneg _ (BigEndianUint64_lt (hdr.drop 4)) hnn
              refine ⟨hdr, payload, content, by rw [← hr, hsplit], hlen, ?_, ?_, ?_⟩
              · rw [hf, hw4]; exact hlook
              · have : (content.length : Int) = (BigEndianUint64 (hdr.drop 4) : Int) := by
                  rw [hsz, hval]
                exact_mod_cast this
              · rw [hn, hsz]
            · rw [if_neg hsz] at heq2
              simp at heq2
      · rw [hbad hst] at hres
        simp at hres

/-- C4, as amended.  For every twelve-byte response whose byte 0 is the OK status,
whatever bytes 1 to 3 hold and however the bytes are split over reads,
`waitForResponse` returns no error and the `int64` conversion of bytes 4 to 11
read as a big-endian unsigned 64-bit integer; that is the unsigned value itself
whenever it is below `2 ^ 63`. -/
theorem waitForResponse_ok_size (ok : Byte) (c : Conn) (hdr payload : List Byte)
    (hlen : hdr.length = 12) (hc : c.reads.flatten = hdr ++ payload)
    (hst : hdr.getD 0 0 = ok) :
    (waitForResponse ok c).2.1 = none ∧
    (waitForResponse ok c).1 = int64 (BigEndianUint64 (hdr.drop 4)) ∧
    (BigEndianUint64 (hdr.drop 4) < 2 ^ 63 →
      (waitForResponse ok c).1 = (BigEndianUint64 (hdr.drop 4) : Int)) := by
  obtain ⟨c1, _, _, h3⟩ := waitForResponse_enough ok c hdr payload hlen hc
  rw [if_neg (not_not.mpr hst)] at h3
  rw [h3]
  exact ⟨rfl, rfl, fun h => int64_of_lt _ h⟩

/-- C5.  For every incoming stream that ends after fewer than twelve bytes,
`waitForResponse` returns size 0 and a short-read error: `io.EOF` when no byte
came and `io.ErrUnexpectedEOF` when some did and the stream ended cleanly, the
socket's own error when it ended with one.  That error is never `nil` and never
the "Service VM failed" error of a non-OK status byte, whatever the first byte
received. -/
theorem waitForResponse_short (ok : Byte) (c : Conn) (h : c.reads.flatten.length < 12) :
    (waitForResponse ok c).1 = 0 ∧
    (waitForResponse ok c).2.1 =
      some (Error.passed (if c.reads.flatten ≠ [] ∧ c.closing = Cause.EOF
        then Cause.ErrUnexpectedEOF else c.closing)) ∧
    (waitForResponse ok c).2.1 ≠ none ∧
    (waitForResponse ok c).2.1 ≠ some Error.serviceVMFailed := by
  rw [waitForResponse_of_short ok c h]
  simp

/-- C9.  For every full twelve-byte response whose status byte is not the OK
sentinel, whatever the other eleven bytes, `waitForResponse` returns size 0 and
the "Service VM failed" error; `ServiceVMImportLayer` returns 0 with an error and
leaves every file as it was; and when the import got as far as the response,
the error it returns is that same error and the only calls made are the
temporary file, the dial and their release: no `os.Create`. -/
theorem nonOK_status_fails (k : Package) (fl : Faults) (w : World) (layerPath : String)
    (reader : Reader) (hdr payload : List Byte) (hlen : hdr.length = 12)
    (hst : hdr.getD 0 0 ≠ k.ResponseOKCmd) :
    (∀ c : Conn, c.reads.flatten = hdr ++ payload →
      (waitForResponse k.ResponseOKCmd c).1 = 0 ∧
      (waitForResponse k.ResponseOKCmd c).2.1 = some Error.serviceVMFailed) ∧
    (fl.peer.reads.flatten = hdr ++ payload →
      (ServiceVMImportLayer k fl w layerPath reader).1 = 0 ∧
      (ServiceVMImportLayer k fl w layerPath reader).2.1 ≠ none ∧
      (ServiceVMImportLayer k fl w layerPath reader).2.2.files = w.files ∧
      (reachesResponse k fl reader = true →
        (ServiceVMImportLayer k fl w layerPath reader).2.1 = some Error.serviceVMFailed ∧
        (ServiceVMImportLayer k fl w layerPath reader).2.2.log =
          w.log ++ [Call.tempFile, Call.dial, Call.connClose, Call.removeTemp fl.tmpName])) := by
  constructor
  · intro c hc
    obtain ⟨c1, _, _, h3⟩ := waitForResponse_enough k.ResponseOKCmd c hdr payload hlen hc
    rw [if_pos hst] at h3
    rw [h3]
    exact ⟨rfl, rfl⟩
  · intro hc
    rcases ServiceVMImportLayer_cases k fl w layerPath reader with
      ⟨hno, h1, h2, h3⟩ | ⟨_, c1, w2, hr, _, hw2, hlog, heq⟩
    · refine ⟨h1, h2, h3, ?_⟩
      intro hreach
      rw [hno] at hreach
      exact absurd hreach (by simp)
    · have hc1 : c1.reads.flatten = hdr ++ payload := by rw [hr, hc]
      have hbad := (receiveImage_of_header k fl w2 layerPath c1 hdr payload hlen hc1).1 hst
      rw [heq, hbad]
      refine ⟨rfl, by simp [removeTemp, closeConn], by simp [removeTemp, closeConn, hw2], ?_⟩
      intro _
      refine ⟨rfl, ?_⟩
      simp [removeTemp, closeConn, hlog]

/-- C3, as amended.  For every import that gets as far as the response, with a
header of OK status declaring size `N`: when `os.Create` fails the import
returns that error and writes nothing; otherwise, when the number of bytes
written to the destination file differs from `N`, the import never returns
success, it reports the size-mismatch error whenever `f.Close()` returned `nil`,
and when `f.Close()` failed it reports that error if no byte was written and a
size mismatch against zero otherwise. -/
theorem ServiceVMImportLayer_size_mismatch (k : Package) (fl : Faults) (w : World)
    (layerPath : String) (reader : Reader) (hdr payload : List Byte)
    (hreach : reachesResponse k fl reader = true) (hlen : hdr.length = 12)
    (hc : fl.peer.reads.flatten = hdr ++ payload) (hst : hdr.getD 0 0 = k.ResponseOKCmd) :
    (∀ e, fl.create = some e →
      (ServiceVMImportLayer k fl w layerPath reader).1 = 0 ∧
      (ServiceVMImportLayer k fl w layerPath reader).2.1 = some (Error.passed e) ∧
      (ServiceVMImportLayer k fl w layerPath reader).2.2.files = w.files) ∧
    (fl.create = none →
      ∃ content : List Byte,
        (ServiceVMImportLayer k fl w layerPath reader).2.2.files.lookup
          (pathJoin layerPath k.LayerVHDName) = some content ∧
        (content.length ≠ BigEndianUint64 (hdr.drop 4) →
          (ServiceVMImportLayer k fl w layerPath reader).1 = 0 ∧
          (ServiceVMImportLayer k fl w layerPath reader).2.1 ≠ none ∧
          (fl.close = none →
            (ServiceVMImportLayer k fl w layerPath reader).2.1 =
              some (Error.sizeMismatch (int64 (BigEndianUint64 (hdr.drop 4))) content.length)) ∧
          (∀ e, fl.close = some e →
            (ServiceVMImportLayer k fl w layerPath reader).2.1 =
              if content.length = 0 then some (Error.passed e)
              else some (Error.sizeMismatch 0 content.length)))) := by
  rcases ServiceVMImportLayer_cases k fl w layerPath reader with
    ⟨hno, _⟩ | ⟨_, c1, w2, hr, _, hw2, _, heq⟩
  · rw [hno] at hreach
    exact absurd hreach (by simp)
  · have hc1 : c1.reads.flatten = hdr ++ payload := by rw [hr, hc]
    obtain ⟨c2, _, _, hres⟩ :=
      (receiveImage_of_header k fl w2 layerPath c1 hdr payload hlen hc1).2 hst
    have hspec := writeVHDFile_spec fl w2 (pathJoin layerPath k.LayerVHDName) c2
    rw [heq, hres]
    constructor
    · intro e he
      rw [hspec.1 e he, compareSizes_some]
      simp [removeTemp, closeConn, hw2]
    · intro hcr
      obtain ⟨content, w4, r1, hwv, hlook⟩ := hspec.2 hcr
      rw [hwv]
      refine ⟨content, ?_, ?_⟩
      · cases hcl : fl.close with
        | none =>
          rw [compareSizes_none]
          split <;> simpa [removeTemp, closeConn] using hlook
        | some e =>
          rw [compareSizes_some]
          split <;> simpa [removeTemp, closeConn] using hlook
      · intro hne
        have hne2 : (content.length : Int) ≠ int64 (BigEndianUint64 (hdr.drop 4)) := by
          intro hsz
          have hnn : 0 ≤ int64 (BigEndianUint64 (hdr.drop 4)) := by
            rw [← hsz]; exact Int.natCast_nonneg _
          have hval := int64_nonneg _ (BigEndianUint64_lt (hdr.drop 4)) hnn
          rw [hval] at hsz
          exact hne (by exact_mod_cast hsz)
        cases hcl : fl.close with
        | none =>
          rw [compareSizes_none, if_neg hne2]
          simp [removeTemp, closeConn]
        | some e =>
          rw [compareSizes_some]
          by_cases hz : content.length = 0
          · simp [removeTemp, closeConn, hz]
          · have hz2 : ¬ (content.length : Int) = 0 := by exact_mod_cast hz
            simp [removeTemp, closeConn, hz, hz2]

/-- What the reader of the pipe finds once the goroutine of `ServiceVMExportLayer`
has run: every byte left on the connection, then `io.EOF`, whatever error the
connection ended with. -/
theorem exportCopy_pipe (c : Conn) :
    (exportCopy c).1 = ⟨c.reads.flatten, some Cause.EOF⟩ := by
  have h := (Copy_unlimited c.closing c.reads ⟨[], none, Cause.other "closed pipe"⟩ 0 rfl).1
  unfold exportCopy
  rcases hcp : Copy c.closing c.reads ⟨[], none, Cause.other "closed pipe"⟩ 0 with ⟨n, e, wr, rest⟩
  rw [hcp] at h
  simp only [List.nil_append] at h
  simp [Pipe.Close, h]

/-- Whenever `ServiceVMExportLayer` hands back a stream, its own error is `nil`,
the response header was complete with OK status, and the stream holds every
byte that followed the header and ends in `io.EOF`. -/
theorem ServiceVMExportLayer_returned (k : Package) (fl : Faults) (w : World) (vhdPath : String)
    (p : Pipe) (h : (ServiceVMExportLayer k fl w vhdPath).1 = some p) :
    (ServiceVMExportLayer k fl w vhdPath).2.1 = none ∧
    p.closed = some Cause.EOF ∧
    ∃ hdr : List Byte, hdr.length = 12 ∧ hdr.getD 0 0 = k.ResponseOKCmd ∧
      fl.peer.reads.flatten = hdr ++ p.data := by
  unfold ServiceVMExportLayer at h ⊢
  rcases hg : getVHDFile w vhdPath with ⟨res, w1⟩
  try rw [hg] at h
  try rw [hg]
  cases res with
  | error e => simp at h
  | ok vhdFile =>
    simp only [connectToServer] at h ⊢
    cases hd : fl.dial with
    | some e => simp [hd] at h
    | none =>
      try rw [hd] at h
      try rw [hd]
      simp only at h ⊢
      cases hs : k.SerializeHeader ⟨k.ExportCmd, 0, 0, 0⟩ with
      | error e => simp [hs] at h
      | ok buf =>
        try rw [hs] at h
        try rw [hs]
        simp only at h ⊢
        have hr := sendLayer_reads fl.peer buf ⟨[vhdFile.content], Cause.EOF⟩
        rcases hsl : sendLayer fl.peer buf ⟨[vhdFile.content], Cause.EOF⟩ with ⟨se, c1⟩
        try rw [hsl] at h
        try rw [hsl] at hr
        try rw [hsl]
        cases se with
        | some e => simp at h
        | none =>
          simp only at h hr ⊢
          by_cases hshort : c1.reads.flatten.length < 12
          · rw [waitForResponse_of_short _ c1 hshort] at h
            simp at h
          · obtain ⟨hdr, payload, hsplit, hlen⟩ := header_split c1.reads.flatten (by omega)
            obtain ⟨c2, h1, _, h3⟩ :=
              waitForResponse_enough k.ResponseOKCmd c1 hdr payload hlen hsplit
            try rw [h3] at h
            try rw [h3]
            by_cases hst : hdr.getD 0 0 = k.ResponseOKCmd
            · rw [if_neg (not_not.mpr hst)] at h
              rw [if_neg (not_not.mpr hst)]
              simp only [exportCopy_pipe, h1, Option.some.injEq] at h
              subst h
              exact ⟨rfl, rfl, hdr, hlen, hst, by rw [← hr.1, hsplit]⟩
            · rw [if_pos hst] at h
              simp at h

/-- C8, as amended.  For every export that has passed the response-header check
(a disk image was opened, the dial, the header and `sendLayer` succeeded, and
the channel delivered a full header of OK status followed by `payload`),
whatever the channel ends with: `ServiceVMExportLayer` returns the stream with a
`nil` error, and the reader of the stream finds the bytes of `payload` and then
a clean `io.EOF`.  The copy of the goroutine fails exactly when the channel does
not end in `io.EOF`, and its error reaches neither the stream nor the return
value. -/
theorem ServiceVMExportLayer_stream (k : Package) (fl : Faults) (w : World) (vhdPath : String)
    (hdr payload : List Byte) (hreach : exportReachesResponse k fl w vhdPath = true)
    (hlen : hdr.length = 12) (hc : fl.peer.reads.flatten = hdr ++ payload)
    (hst : hdr.getD 0 0 = k.ResponseOKCmd) :
    (ServiceVMExportLayer k fl w vhdPath).1 = some ⟨payload, some Cause.EOF⟩ ∧
    (ServiceVMExportLayer k fl w vhdPath).2.1 = none ∧
    (∀ c : Conn, c.reads.flatten = payload → c.closing = fl.peer.closing →
      (Copy c.closing c.reads ⟨[], none, Cause.other "closed pipe"⟩ 0).2.1 =
        (if fl.peer.closing = Cause.EOF then none else some fl.peer.closing) ∧
      (exportCopy c).1 = ⟨payload, some Cause.EOF⟩) := by
  refine ⟨?_, ?_, ?_⟩
  case refine_3 =>
    intro c hr hcl
    refine ⟨?_, by rw [exportCopy_pipe, hr]⟩
    rw [(Copy_unlimited c.closing c.reads ⟨[], none, Cause.other "closed pipe"⟩ 0 rfl).2, hcl]
  all_goals
    unfold exportReachesResponse at hreach
    unfold ServiceVMExportLayer
    rcases hg : getVHDFile w vhdPath with ⟨res, w1⟩
    rw [hg] at hreach
    cases res with
    | error e => simp at hreach
    | ok vhdFile =>
      simp only [connectToServer] at hreach ⊢
      cases hd : fl.dial with
      | some e => simp [hd] at hreach
      | none =>
        rw [hd] at hreach
        simp only [Option.isNone_none, Bool.true_and] at hreach ⊢
        cases hs : k.SerializeHeader ⟨k.ExportCmd, 0, 0, 0⟩ with
        | error e => simp [hs] at hreach
        | ok buf =>
          rw [hs] at hreach
          simp only at hreach ⊢
          have hr := sendLayer_reads fl.peer buf ⟨[vhdFile.content], Cause.EOF⟩
          rcases hsl : sendLayer fl.peer buf ⟨[vhdFile.content], Cause.EOF⟩ with ⟨se, c1⟩
          rw [hsl] at hreach hr
          cases se with
          | some e => simp at hreach
          | none =>
            simp only at hr ⊢
            have hc1 : c1.reads.flatten = hdr ++ payload := by rw [hr.1, hc]
            obtain ⟨c2, h1, _, h3⟩ :=
              waitForResponse_enough k.ResponseOKCmd c1 hdr payload hlen hc1
            rw [h3, if_neg (not_not.mpr hst)]
            try simp [exportCopy_pipe, h1]

/-- C10, as amended.  When neither `layer.vhd` nor `sandbox.vhdx` exists at the
layer path, `ServiceVMExportLayer` returns no stream and an error after one or
two `os.Open` calls and nothing else: no dial.  The error is a not-exist error
exactly when no `os.Open` failed for another reason; when opening `layer.vhd`
fails for another reason that error is returned after the one open.
`getVHDFile` returns `layer.vhd` when it opens, without a second `os.Open`; it
returns the error of opening `layer.vhd` when that is not a not-exist error,
without a second `os.Open`; and when `layer.vhd` does not exist it opens
`sandbox.vhdx` and returns what that open returns. -/
theorem ServiceVMExportLayer_not_found (k : Package) (fl : Faults) (w : World)
    (vhdPath : String) :
    (w.files.lookup (pathJoin vhdPath "layer.vhd") = none →
      w.files.lookup (pathJoin vhdPath "sandbox.vhdx") = none →
      ServiceVMExportLayer k fl w vhdPath =
        (none,
          some (Error.passed
            (if pathJoin vhdPath "layer.vhd" ∈ w.denied ∨ pathJoin vhdPath "sandbox.vhdx" ∈ w.denied
              then Cause.other "open" else Cause.notExist (pathJoin vhdPath "sandbox.vhdx"))),
          { w with log := w.log ++
              (if pathJoin vhdPath "layer.vhd" ∈ w.denied
                then [Call.osOpen (pathJoin vhdPath "layer.vhd")]
                else [Call.osOpen (pathJoin vhdPath "layer.vhd"),
                  Call.osOpen (pathJoin vhdPath "sandbox.vhdx")]) }) ∧
      (IsNotExist
          (if pathJoin vhdPath "layer.vhd" ∈ w.denied ∨ pathJoin vhdPath "sandbox.vhdx" ∈ w.denied
            then Cause.other "open" else Cause.notExist (pathJoin vhdPath "sandbox.vhdx")) = true ↔
        pathJoin vhdPath "layer.vhd" ∉ w.denied ∧ pathJoin vhdPath "sandbox.vhdx" ∉ w.denied)) ∧
    (pathJoin vhdPath "layer.vhd" ∈ w.denied →
      getVHDFile w vhdPath = (.error (Cause.other "open"),
        { w with log := w.log ++ [Call.osOpen (pathJoin vhdPath "layer.vhd")] })) ∧
    (pathJoin vhdPath "layer.vhd" ∉ w.denied →
      ∀ content, w.files.lookup (pathJoin vhdPath "layer.vhd") = some content →
      getVHDFile w vhdPath = (.ok ⟨pathJoin vhdPath "layer.vhd", content⟩,
        { w with log := w.log ++ [Call.osOpen (pathJoin vhdPath "layer.vhd")] })) ∧
    (pathJoin vhdPath "layer.vhd" ∉ w.denied →
      w.files.lookup (pathJoin vhdPath "layer.vhd") = none →
      getVHDFile w vhdPath =
        osOpen { w with log := w.log ++ [Call.osOpen (pathJoin vhdPath "layer.vhd")] }
          (pathJoin vhdPath "sandbox.vhdx")) := by
  refine ⟨?_, ?_, ?_, ?_⟩
  · intro h1 h2
    by_cases hd1 : pathJoin vhdPath "layer.vhd" ∈ w.denied
    · simp [ServiceVMExportLayer, getVHDFile, osOpen, hd1, IsNotExist]
    · by_cases hd2 : pathJoin vhdPath "sandbox.vhdx" ∈ w.denied
      · simp [ServiceVMExportLayer, getVHDFile, osOpen, h1, hd1, hd2, IsNotExist]
      · simp [ServiceVMExportLayer, getVHDFile, osOpen, h1, h2, hd1, hd2, IsNotExist]
  · intro hd1
    simp [getVHDFile, osOpen, hd1, IsNotExist]
  · intro hd1 content h1
    simp [getVHDFile, osOpen, h1, hd1]
  · intro hd1 h1
    simp [getVHDFile, osOpen, h1, hd1, IsNotExist]

end winlx

/-! ## The layer store: lemmas and claims -/

namespace graph

/-- Lines 62 to 96: on an error the index and the directories are as they were; on
success no fault was injected on the path taken, the id has entered the index
and the staging directory has become the final one. -/
theorem registerStaged_spec (g : Graph) (fl : Faults) (s : State) (img : Image)
    (layerData : Option (List Nat)) (tmp : String) :
    ((registerStaged g fl s img layerData tmp).1 ≠ none →
      (registerStaged g fl s img layerData tmp).2.idIndex = s.idIndex ∧
      (registerStaged g fl s img layerData tmp).2.dirs = s.dirs) ∧
    ((registerStaged g fl s img layerData tmp).1 = none →
      fl.storeImage = none ∧ fl.rename = none ∧
      ((g.driverIsWindows = true ∧ img.Container ≠ "" ∧ layerData = none) → fl.copyDiff = none) ∧
      (¬ (g.driverIsWindows = true ∧ img.Container ≠ "" ∧ layerData = none) → fl.create = none) ∧
      (registerStaged g fl s img layerData tmp).2.idIndex = img.ID :: s.idIndex ∧
      (registerStaged g fl s img layerData tmp).2.dirs =
        g.ImageRoot img.ID :: s.dirs.filter (fun d => d ≠ tmp) ∧
      Call.rename tmp (g.ImageRoot img.ID) ∈ (registerStaged g fl s img layerData tmp).2.log) := by
  unfold registerStaged
  by_cases hfast : g.driverIsWindows = true ∧ img.Container ≠ "" ∧ layerData = none
  · simp only [hfast, and_self, if_true, ne_eq, not_false_eq_true, true_implies, not_true_eq_false, false_implies]
    cases hget : fl.get <;> cases hpl : fl.parentLayerIds <;> cases hcd : fl.copyDiff <;>
      cases hleft : fl.leftover <;>
      cases hst : fl.storeImage <;> cases hrn : fl.rename <;>
      simp [CopyDiff, record, osRename, idIndexAdd, hget, hpl, hcd, hst, hrn, hleft]
  · simp only [hfast, if_false, ne_eq, not_false_eq_true, true_implies, not_true_eq_false, false_implies]
    cases hcd : fl.create <;> cases hleft : fl.leftover <;>
      cases hst : fl.storeImage <;> cases hrn : fl.rename <;>
      simp [driverCreate, record, osRename, idIndexAdd, hcd, hst, hrn, hleft]


/-- C6 on the code.  For every image whose id fails validation, `Register` returns
the validation error, and its deferred function has called
`graph.driver.Remove` with the unvalidated id: that call is the only one made,
and the only effect on the store. -/
theorem Register_invalid_id (g : Graph) (fl : Faults) (s : State) (img : Image)
    (layerData : Option (List Nat)) (e : Error) (h : g.ValidateID img.ID = some e) :
    Register g fl s img layerData = (some e, driverRemove fl.deferredRemove s img.ID) := by
  simp [Register, registerBody, h]

/-- C7 on the code.  For every image whose valid id is already in the index,
`Register` returns the already-exists error, and its deferred function has
called `graph.driver.Remove` with the id of the committed image: the index and
the directories are as before, the state of the driver for the id is not. -/
theorem Register_already_exists (g : Graph) (fl : Faults) (s : State) (img : Image)
    (layerData : Option (List Nat)) (hv : g.ValidateID img.ID = none)
    (hin : img.ID ∈ s.idIndex) :
    Register g fl s img layerData =
      (some (Error.alreadyExists img.ID), driverRemove fl.deferredRemove s img.ID) := by
  simp [Register, registerBody, hv, Exists, hin]

/-- Removing a directory leaves the index alone. -/
theorem osRemoveAll_idIndex (fault : Option Error) (s : State) (path : String) :
    (osRemoveAll fault s path).2.idIndex = s.idIndex := by
  unfold osRemoveAll
  split <;> [skip; split] <;> rfl

/-- Removing a directory creates none. -/
theorem osRemoveAll_dirs_sub (fault : Option Error) (s : State) (path d : String)
    (h : d ∈ (osRemoveAll fault s path).2.dirs) : d ∈ s.dirs := by
  unfold osRemoveAll at h
  revert h
  split <;> [skip; split] <;> simp
  intro h _
  exact h

/-- Removing a directory keeps every other one. -/
theorem osRemoveAll_dirs_keep (fault : Option Error) (s : State) (path d : String)
    (h : d ∈ s.dirs) (hne : d ≠ path) : d ∈ (osRemoveAll fault s path).2.dirs := by
  unfold osRemoveAll
  split <;> [skip; split] <;> simp [h, hne]

/-- Removing a directory keeps the record of earlier calls. -/
theorem osRemoveAll_log (fault : Option Error) (s : State) (path : String) (c : Call)
    (h : c ∈ s.log) : c ∈ (osRemoveAll fault s path).2.log := by
  unfold osRemoveAll
  split <;> [skip; split] <;> simp [h]

/-- A removal that does not fail leaves no directory at the path. -/
theorem osRemoveAll_removed (s : State) (path : String) (h : path ≠ "") :
    path ∉ (osRemoveAll none s path).2.dirs := by
  simp [osRemoveAll, h]

/-- What `graph.Mktemp` returns and does. -/
theorem Mktemp_spec (fl : Faults) (s : State) :
    (Mktemp fl s).2.1 = fl.mktemp ∧ (Mktemp fl s).2.2.idIndex = s.idIndex ∧
    (fl.mktemp = none → (Mktemp fl s).1 = fl.tmp ∧ (Mktemp fl s).2.2.dirs = fl.tmp :: s.dirs) ∧
    (fl.mktemp ≠ none → (Mktemp fl s).2.2.dirs = s.dirs) := by
  unfold Mktemp
  cases hmk : fl.mktemp <;> simp

/-- Lines 54 to 96: on an error the index is as it was and the only directory that
can have appeared is the staging one; on success no fault was injected on the
path taken, the id has entered the index and the rename was made. -/
theorem registerFresh_spec (g : Graph) (fl : Faults) (s : State) (img : Image)
    (layerData : Option (List Nat)) :
    ((registerFresh g fl s img layerData).1 ≠ none →
      (registerFresh g fl s img layerData).2.idIndex = s.idIndex ∧
      ∀ d, d ∈ (registerFresh g fl s img layerData).2.dirs → d ∈ s.dirs ∨ d = fl.tmp) ∧
    ((registerFresh g fl s img layerData).1 = none →
      fl.mktemp = none ∧ fl.storeImage = none ∧ fl.rename = none ∧
      ((g.driverIsWindows = true ∧ img.Container ≠ "" ∧ layerData = none) → fl.copyDiff = none) ∧
      (¬ (g.driverIsWindows = true ∧ img.Container ≠ "" ∧ layerData = none) → fl.create = none) ∧
      (registerFresh g fl s img layerData).2.idIndex = img.ID :: s.idIndex ∧
      Call.rename fl.tmp (g.ImageRoot img.ID) ∈ (registerFresh g fl s img layerData).2.log ∧
      (fl.tmp ≠ g.ImageRoot img.ID →
        g.ImageRoot img.ID ∈ (registerFresh g fl s img layerData).2.dirs)) := by
  obtain ⟨hm1, hm2, hm3, hm4⟩ := Mktemp_spec fl (driverRemove fl.driverRemove s img.ID)
  rcases hm : Mktemp fl (driverRemove fl.driverRemove s img.ID) with ⟨tmp, mkErr, s2⟩
  rw [hm] at hm1 hm2 hm3 hm4
  simp only [driverRemove] at hm1 hm2 hm3 hm4
  simp only [registerFresh, hm]
  cases mkErr with
  | some cause =>
    simp only [ne_eq, reduceCtorEq, not_false_eq_true, true_implies, false_implies,
      and_true, osRemoveAll_idIndex]
    refine ⟨hm2, ?_⟩
    intro d hd
    have := osRemoveAll_dirs_sub _ _ _ _ hd
    rw [hm4 (by rw [← hm1]; simp)] at this
    exact Or.inl this
  | none =>
    obtain ⟨htmp, hdirs⟩ := hm3 hm1.symm
    subst htmp
    have hst := registerStaged_spec g fl s2 img layerData fl.tmp
    simp only
    generalize registerStaged g fl s2 img layerData fl.tmp = r at hst ⊢
    constructor
    · intro herr
      obtain ⟨h1, h2⟩ := hst.1 herr
      refine ⟨by rw [osRemoveAll_idIndex, h1, hm2], ?_⟩
      intro d hd
      have := osRemoveAll_dirs_sub _ _ _ _ hd
      rw [h2, hdirs] at this
      simp only [List.mem_cons] at this
      tauto
    · intro hok
      obtain ⟨h1, h2, h3, h4, h5, h6, h7⟩ := hst.2 hok
      refine ⟨hm1.symm, h1, h2, h3, h4, by rw [osRemoveAll_idIndex, h5, hm2],
        osRemoveAll_log _ _ _ _ h7, ?_⟩
      intro hne
      apply osRemoveAll_dirs_keep _ _ _ _ _ hne.symm
      rw [h6]
      exact List.mem_cons_self _ _

/-- For a valid id that is not in the index, the body either stops at the failed
removal of the final directory or runs lines 54 to 96 after that removal. -/
theorem registerBody_cases (g : Graph) (fl : Faults) (s : State) (img : Image)
    (layerData : Option (List Nat)) (hv : g.ValidateID img.ID = none)
    (hidx : img.ID ∉ s.idIndex) :
    (∃ e, registerBody g fl s img layerData =
      (some e, (osRemoveAll fl.removeAllRoot s (g.ImageRoot img.ID)).2)) ∨
    registerBody g fl s img layerData =
      registerFresh g fl (osRemoveAll fl.removeAllRoot s (g.ImageRoot img.ID)).2 img layerData := by
  have hex : Exists s img.ID = false := by simp [Exists, hidx]
  rcases hrm : osRemoveAll fl.removeAllRoot s (g.ImageRoot img.ID) with ⟨e, s1⟩
  simp only [registerBody, hv, hex, hrm]
  cases e with
  | none => right; simp
  | some e =>
    by_cases hne : IsNotExist e = true
    · right; simp [hne]
    · left; exact ⟨e, by simp [hne]⟩

/-- C1.  For every call of `Register` on an image whose id is valid and not in the
index: when the removal of a leftover final directory did not fail, the final
directory is a path other than the staging directory, and a failure is
injected at `Mktemp`, at the materialization the call performs (`CopyDiff` on
the fast path, `driver.Create` otherwise), at `StoreImage` or at the final
rename, `Register` returns an error, the id is still not in the index and no
final directory for the id exists afterwards.  And the id is in the index
after the call only if the call succeeded with the rename of the staging
directory to the final location made and not failed; the final directory then
exists. -/
theorem Register_atomic (g : Graph) (fl : Faults) (s : State) (img : Image)
    (layerData : Option (List Nat)) (hv : g.ValidateID img.ID = none)
    (hidx : img.ID ∉ s.idIndex) :
    (fl.removeAllRoot = none → g.ImageRoot img.ID ≠ "" → fl.tmp ≠ g.ImageRoot img.ID →
      (fl.mktemp.isSome ∨
        ((g.driverIsWindows = true ∧ img.Container ≠ "" ∧ layerData = none) ∧ fl.copyDiff.isSome) ∨
        (¬ (g.driverIsWindows = true ∧ img.Container ≠ "" ∧ layerData = none) ∧ fl.create.isSome) ∨
        fl.storeImage.isSome ∨ fl.rename.isSome) →
      (Register g fl s img layerData).1 ≠ none ∧
      img.ID ∉ (Register g fl s img layerData).2.idIndex ∧
      g.ImageRoot img.ID ∉ (Register g fl s img layerData).2.dirs) ∧
    (img.ID ∈ (Register g fl s img layerData).2.idIndex →
      (Register g fl s img layerData).1 = none ∧ fl.rename = none ∧
      Call.rename fl.tmp (g.ImageRoot img.ID) ∈ (Register g fl s img layerData).2.log ∧
      (fl.tmp ≠ g.ImageRoot img.ID →
        g.ImageRoot img.ID ∈ (Register g fl s img layerData).2.dirs)) := by
  have hsp := registerFresh_spec g fl (osRemoveAll fl.removeAllRoot s (g.ImageRoot img.ID)).2
    img layerData
  have hcases := registerBody_cases g fl s img layerData hv hidx
  constructor
  · intro hrm hroot htmp hfault
    have hbody : registerBody g fl s img layerData =
        registerFresh g fl (osRemoveAll fl.removeAllRoot s (g.ImageRoot img.ID)).2
          img layerData := by
      have hex : Exists s img.ID = false := by simp [Exists, hidx]
      simp [registerBody, hv, hex, hrm, osRemoveAll, hroot]
    have herr : (registerFresh g fl (osRemoveAll fl.removeAllRoot s (g.ImageRoot img.ID)).2
        img layerData).1 ≠ none := by
      intro hnone
      obtain ⟨h1, h2, h3, h4, h5, _⟩ := hsp.2 hnone
      rcases hfault with hf | hf | hf | hf | hf
      · rw [h1] at hf; simp at hf
      · rw [h4 hf.1] at hf; simp at hf
      · rw [h5 hf.1] at hf; simp at hf
      · rw [h2] at hf; simp at hf
      · rw [h3] at hf; simp at hf
    obtain ⟨hi, hd⟩ := hsp.1 herr
    unfold Register
    rw [hbody]
    rcases hres : registerFresh g fl (osRemoveAll fl.removeAllRoot s (g.ImageRoot img.ID)).2
      img layerData with ⟨e, s1⟩
    rw [hres] at herr hi hd
    cases e with
    | none => exact absurd rfl herr
    | some e =>
      simp only [driverRemove, ne_eq, reduceCtorEq, not_false_eq_true, true_and]
      simp only at hi hd
      refine ⟨?_, ?_⟩
      · rw [hi, osRemoveAll_idIndex]; exact hidx
      · intro hmem
        rcases hd _ hmem with h | h
        · rw [hrm] at h
          exact osRemoveAll_removed s _ hroot h
        · exact htmp h.symm
  · intro hmem
    unfold Register at hmem ⊢
    rcases hcases with ⟨e, he⟩ | h
    · rw [he] at hmem
      simp only [driverRemove, osRemoveAll_idIndex] at hmem
      exact absurd hmem hidx
    · rw [h] at hmem ⊢
      rcases hres : registerFresh g fl (osRemoveAll fl.removeAllRoot s (g.ImageRoot img.ID)).2
        img layerData with ⟨e, s1⟩
      rw [hres] at hsp hmem
      cases e with
      | some e =>
        simp only [driverRemove] at hmem
        rw [(hsp.1 (by simp)).1, osRemoveAll_idIndex] at hmem
        exact absurd hmem hidx
      | none =>
        obtain ⟨_, _, h3, _, _, _, h7, h8⟩ := hsp.2 rfl
        exact ⟨rfl, h3, h7, h8⟩

end graph

/-! ## The claims at concrete inputs -/

set_option maxRecDepth 100000

namespace winlx

/-- C2 at a concrete import: a response declaring three bytes followed by three
bytes; the import returns 3 and `L/layer.vhd` holds three bytes. -/
theorem ServiceVMImportLayer_success_size_witness :
    ServiceVMImportLayer examplePackage (exampleFaults exampleThree) exampleWorld "L" exampleReader
      = (3, none, exampleImported) ∧
    ∃ hdr payload content : List Byte,
      (exampleFaults exampleThree).peer.reads.flatten = hdr ++ payload ∧ hdr.length = 12 ∧
      exampleImported.files.lookup (pathJoin "L" examplePackage.LayerVHDName) = some content ∧
      content.length = BigEndianUint64 (hdr.drop 4) ∧
      (3 : Int) = (content.length : Int) :=
  ⟨by decide, ServiceVMImportLayer_success_size examplePackage (exampleFaults exampleThree)
    exampleWorld "L" exampleReader 3 exampleImported (by decide)⟩

/-- C4 as stated fails: for the OK response whose bytes 4 to 11 are `80 00 00 00 00
00 00 00`, the unsigned value is `2 ^ 63` and `waitForResponse` returns `-2 ^ 63`. -/
theorem waitForResponse_size_wraps :
    (waitForResponse 1 exampleTopBit).2.1 = none ∧
    (waitForResponse 1 exampleTopBit).1 = -9223372036854775808 ∧
    BigEndianUint64 [128, 0, 0, 0, 0, 0, 0, 0] = 9223372036854775808 ∧
    (waitForResponse 1 exampleTopBit).1 ≠ (BigEndianUint64 [128, 0, 0, 0, 0, 0, 0, 0] : Int) := by
  refine ⟨by rfl, by rfl, by rfl, ?_⟩
  rw [show (waitForResponse 1 exampleTopBit).1 = -9223372036854775808 from rfl,
    show BigEndianUint64 [128, 0, 0, 0, 0, 0, 0, 0] = 9223372036854775808 from rfl]
  decide

/-- C4, as amended, at a response declaring 500 bytes. -/
theorem waitForResponse_ok_size_witness :
    header500.length = 12 ∧ exampleShortPayload.reads.flatten = header500 ++ List.replicate 480 0 ∧
    header500.getD 0 0 = 1 ∧
    ((waitForResponse 1 exampleShortPayload).2.1 = none ∧
      (waitForResponse 1 exampleShortPayload).1 = int64 (BigEndianUint64 (header500.drop 4)) ∧
      (BigEndianUint64 (header500.drop 4) < 2 ^ 63 →
        (waitForResponse 1 exampleShortPayload).1 = (BigEndianUint64 (header500.drop 4) : Int))) :=
  ⟨by decide, by simp only [exampleShortPayload, exampleConn, List.flatten_cons, List.flatten_nil, List.append_nil], by decide,
    waitForResponse_ok_size 1 exampleShortPayload header500 (List.replicate 480 0)
      (by decide) (by simp only [exampleShortPayload, exampleConn, List.flatten_cons, List.flatten_nil, List.append_nil]) (by decide)⟩

/-- C5 at a stream that ends cleanly after six bytes whose first is the OK status:
size 0 and `io.ErrUnexpectedEOF`. -/
theorem waitForResponse_short_witness :
    exampleSixBytes.reads.flatten.length < 12 ∧
    (waitForResponse 1 exampleSixBytes).1 = 0 ∧
    (waitForResponse 1 exampleSixBytes).2.1 = some (Error.passed Cause.ErrUnexpectedEOF) ∧
    (waitForResponse 1 exampleSixBytes).2.1 ≠ some Error.serviceVMFailed :=
  have h := waitForResponse_short 1 exampleSixBytes (by decide)
  ⟨by decide, h.1, by decide, h.2.2.2⟩

/-- C3 as stated fails: the header has OK status and declares 500 bytes, `os.Create`
fails, so no byte is written to the destination file, and the import returns
the error of `os.Create`, not a size-mismatch error. -/
theorem ServiceVMImportLayer_create_error_replaces_mismatch :
    reachesResponse examplePackage (exampleCreateFails exampleShortPayload) exampleReader = true ∧
    header500.getD 0 0 = examplePackage.ResponseOKCmd ∧
    BigEndianUint64 (header500.drop 4) = 500 ∧
    ServiceVMImportLayer examplePackage (exampleCreateFails exampleShortPayload) exampleWorld "L"
        exampleReader =
      (0, some (Error.passed (Cause.other "access denied")),
        ⟨[("L/layer.vhd", [1, 2])], [], [],
          [Call.tempFile, Call.dial, Call.osCreate "L/layer.vhd", Call.connClose,
            Call.removeTemp "docker-tar1"]⟩) ∧
    ¬ ∃ expected got,
      (ServiceVMImportLayer examplePackage (exampleCreateFails exampleShortPayload) exampleWorld "L"
        exampleReader).2.1 = some (Error.sizeMismatch expected got) := by
  have hrun : ServiceVMImportLayer examplePackage (exampleCreateFails exampleShortPayload)
      exampleWorld "L" exampleReader =
      (0, some (Error.passed (Cause.other "access denied")),
        ⟨[("L/layer.vhd", [1, 2])], [], [],
          [Call.tempFile, Call.dial, Call.osCreate "L/layer.vhd", Call.connClose,
            Call.removeTemp "docker-tar1"]⟩) := by decide
  refine ⟨by decide, by decide, by decide, hrun, ?_⟩
  rw [hrun]
  rintro ⟨a, b, h⟩
  cases h


/-- C3, as amended, at the import of the scenario: the header declares 500 bytes,
480 arrive before the remote closes, and the import reports the size mismatch
of 500 against 480. -/
theorem ServiceVMImportLayer_size_mismatch_witness :
    reachesResponse examplePackage (exampleFaults exampleShortPayload) exampleReader = true ∧
    header500.length = 12 ∧
    (exampleFaults exampleShortPayload).peer.reads.flatten = header500 ++ List.replicate 480 0 ∧
    header500.getD 0 0 = examplePackage.ResponseOKCmd ∧
    (ServiceVMImportLayer examplePackage (exampleFaults exampleShortPayload) exampleWorld "L"
      exampleReader).2.1 = some (Error.sizeMismatch 500 480) := by
  have hc : (exampleFaults exampleShortPayload).peer.reads.flatten =
      header500 ++ List.replicate 480 0 := by
    simp only [exampleFaults, exampleShortPayload, exampleConn, List.flatten_cons,
      List.flatten_nil, List.append_nil]
  have h := ServiceVMImportLayer_size_mismatch examplePackage (exampleFaults exampleShortPayload)
    exampleWorld "L" exampleReader header500 (List.replicate 480 0) (by decide) (by decide) hc
    (by decide)
  refine ⟨by decide, by decide, hc, by decide, ?_⟩
  obtain ⟨content, hlook, hrest⟩ := h.2 rfl
  have hcontent : content = List.replicate 480 0 := by
    have hl : (ServiceVMImportLayer examplePackage (exampleFaults exampleShortPayload)
        exampleWorld "L" exampleReader).2.2.files.lookup
          (pathJoin "L" examplePackage.LayerVHDName) = some (List.replicate 480 0) := by decide
    rw [hl] at hlook
    exact (Option.some.inj hlook).symm
  subst hcontent
  have hsz := (hrest (by decide)).2.2.1 rfl
  rw [hsz]
  decide

/-- C8 as stated fails: the channel delivers an OK header and three bytes and then
fails with a read error, so the copy into the returned stream fails; the reader
of the stream finds the three bytes and then a clean `io.EOF`. -/
theorem ServiceVMExportLayer_copy_error_dropped :
    (Copy exampleReset.closing [[5, 6, 7]] ⟨[], none, Cause.other "closed pipe"⟩ 0).2.1
      = some (Cause.other "connection reset") ∧
    ServiceVMExportLayer examplePackage (exampleFaults exampleReset) exampleWorld "L" =
      (some ⟨[5, 6, 7], some Cause.EOF⟩, none,
        ⟨[("L/layer.vhd", [1, 2])], [], [],
          [Call.osOpen "L/layer.vhd", Call.dial, Call.fileClose "L/layer.vhd"]⟩) := by
  constructor <;> decide

/-- C8, as amended, at that export: the header check is passed, the channel then
fails, and the stream comes back with a `nil` error, the three bytes and
`io.EOF`. -/
theorem ServiceVMExportLayer_stream_witness :
    exportReachesResponse examplePackage (exampleFaults exampleReset) exampleWorld "L" = true ∧
    (exampleFaults exampleReset).peer.reads.flatten =
      [1, 0, 0, 0, 0, 0, 0, 0, 0, 0, 0, 9] ++ [5, 6, 7] ∧
    (exampleFaults exampleReset).peer.closing = Cause.other "connection reset" ∧
    (ServiceVMExportLayer examplePackage (exampleFaults exampleReset) exampleWorld "L").1 =
      some ⟨[5, 6, 7], some Cause.EOF⟩ ∧
    (ServiceVMExportLayer examplePackage (exampleFaults exampleReset) exampleWorld "L").2.1 = none :=
  have h := ServiceVMExportLayer_stream examplePackage (exampleFaults exampleReset) exampleWorld
    "L" [1, 0, 0, 0, 0, 0, 0, 0, 0, 0, 0, 9] [5, 6, 7] (by decide) (by decide) (by decide)
    (by decide)
  ⟨by decide, by decide, by decide, h.1, h.2.1⟩

/-- C9 at a response whose status byte is 0 while the OK status is 1. -/
theorem nonOK_status_fails_witness :
    headerFailed.length = 12 ∧ headerFailed.getD 0 0 ≠ examplePackage.ResponseOKCmd ∧
    (exampleFaults exampleFailed).peer.reads.flatten = headerFailed ++ [9, 9, 7] ∧
    reachesResponse examplePackage (exampleFaults exampleFailed) exampleReader = true ∧
    (waitForResponse examplePackage.ResponseOKCmd exampleFailed).1 = 0 ∧
    (waitForResponse examplePackage.ResponseOKCmd exampleFailed).2.1 = some Error.serviceVMFailed ∧
    (ServiceVMImportLayer examplePackage (exampleFaults exampleFailed) exampleWorld "L"
      exampleReader).2.1 = some Error.serviceVMFailed ∧
    (ServiceVMImportLayer examplePackage (exampleFaults exampleFailed) exampleWorld "L"
      exampleReader).2.2.files = exampleWorld.files ∧
    (ServiceVMImportLayer examplePackage (exampleFaults exampleFailed) exampleWorld "L"
      exampleReader).2.2.log =
        exampleWorld.log ++ [Call.tempFile, Call.dial, Call.connClose,
          Call.removeTemp (exampleFaults exampleFailed).tmpName] :=
  have h := nonOK_status_fails examplePackage (exampleFaults exampleFailed) exampleWorld "L"
    exampleReader headerFailed [9, 9, 7] (by decide) (by decide)
  have hw := h.1 exampleFailed (by decide)
  have hi := h.2 (by decide)
  have hr := hi.2.2.2 (by decide)
  ⟨by decide, by decide, by decide, by decide, hw.1, hw.2, hr.1, hi.2.2.1, hr.2⟩

/-- C10 as stated fails: neither `P/layer.vhd` nor `P/sandbox.vhdx` exists, and
`os.Open` of `P/layer.vhd` fails with a permission error because `P` may not be
searched; the export returns that error after the one open, and it is not a
not-exist error. -/
theorem ServiceVMExportLayer_open_denied :
    exampleNoAccess.files.lookup (pathJoin "P" "layer.vhd") = none ∧
    exampleNoAccess.files.lookup (pathJoin "P" "sandbox.vhdx") = none ∧
    ServiceVMExportLayer examplePackage (exampleFaults exampleThree) exampleNoAccess "P" =
      (none, some (Error.passed (Cause.other "open")),
        ⟨[], ["P/layer.vhd", "P/sandbox.vhdx"], [], [Call.osOpen "P/layer.vhd"]⟩) ∧
    IsNotExist (Cause.other "open") = false := by
  refine ⟨by decide, by decide, by decide, by decide⟩

/-- C10, as amended, at a layer path `M` with no disk image and no other failure
of `os.Open`: a not-exist error after the two opens and no dial; and
`getVHDFile` at the path `L` that holds `layer.vhd`. -/
theorem ServiceVMExportLayer_not_found_witness :
    exampleWorld.files.lookup (pathJoin "M" "layer.vhd") = none ∧
    exampleWorld.files.lookup (pathJoin "M" "sandbox.vhdx") = none ∧
    ServiceVMExportLayer examplePackage (exampleFaults exampleThree) exampleWorld "M" =
      (none, some (Error.passed (Cause.notExist "M/sandbox.vhdx")),
        ⟨[("L/layer.vhd", [1, 2])], [], [],
          [Call.osOpen "M/layer.vhd", Call.osOpen "M/sandbox.vhdx"]⟩) ∧
    getVHDFile exampleWorld "L" = (.ok ⟨"L/layer.vhd", [1, 2]⟩,
      ⟨[("L/layer.vhd", [1, 2])], [], [], [Call.osOpen "L/layer.vhd"]⟩) :=
  have h := ServiceVMExportLayer_not_found examplePackage (exampleFaults exampleThree) exampleWorld "M"
  ⟨by decide, by decide, ((h.1 (by decide) (by decide)).1).trans (by decide),
    ((ServiceVMExportLayer_not_found examplePackage (exampleFaults exampleThree) exampleWorld
      "L").2.2.1 (by decide) [1, 2] (by decide)).trans (by rfl)⟩

end winlx

namespace graph

/-- C1 at a registration whose final rename fails, on a store that had a leftover
final directory for the id: an error, the id is not in the index and the final
directory is gone. -/
theorem Register_atomic_witness :
    exampleGraph.ValidateID otherID = none ∧ otherID ∉ exampleState.idIndex ∧
    exampleGraph.ImageRoot otherID ∈ exampleState.dirs ∧
    (Register exampleGraph renameFails exampleState ⟨otherID, "", ""⟩ (some [])).1 ≠ none ∧
    otherID ∉ (Register exampleGraph renameFails exampleState ⟨otherID, "", ""⟩ (some [])).2.idIndex ∧
    exampleGraph.ImageRoot otherID ∉
      (Register exampleGraph renameFails exampleState ⟨otherID, "", ""⟩ (some [])).2.dirs :=
  ⟨by decide, by decide, by decide,
    (Register_atomic exampleGraph renameFails exampleState ⟨otherID, "", ""⟩ (some [])
      (by decide) (by decide)).1 (by decide) (by decide) (by decide)
      (Or.inr (Or.inr (Or.inr (Or.inr (by decide)))))⟩

/-- C6 at the id `../layers`: the validation error is returned and
`driver.Remove("../layers")` has been called. -/
theorem Register_invalid_id_witness :
    exampleGraph.ValidateID "../layers" = some (Error.invalidID "../layers") ∧
    Register exampleGraph noFaults ⟨[], [], ["../layers"], []⟩ ⟨"../layers", "", ""⟩ (some []) =
      (some (Error.invalidID "../layers"), ⟨[], [], [], [Call.driverRemove "../layers"]⟩) :=
  ⟨by decide,
    (Register_invalid_id exampleGraph noFaults ⟨[], [], ["../layers"], []⟩ ⟨"../layers", "", ""⟩
      (some []) (Error.invalidID "../layers") (by decide)).trans (by decide)⟩

/-- C7 at an id that is committed: the already-exists error is returned, the index
and the directories are as before, and the driver has lost its state for the
id. -/
theorem Register_already_exists_witness :
    exampleGraph.ValidateID exampleID = none ∧ exampleID ∈ exampleState.idIndex ∧
    exampleID ∈ exampleState.driver ∧
    Register exampleGraph noFaults exampleState ⟨exampleID, "", ""⟩ (some []) =
      (some (Error.alreadyExists exampleID),
        ⟨[exampleID], ["/g/" ++ exampleID, "/g/" ++ otherID], [otherID],
          [Call.driverRemove exampleID]⟩) :=
  ⟨by decide, by decide, by decide,
    (Register_already_exists exampleGraph noFaults exampleState ⟨exampleID, "", ""⟩ (some [])
      (by decide) (by decide)).trans (by decide)⟩

end graph
